import Mathlib

/-!
Shallow embedding of the multi-agent workflow orchestration engine
(`agents/orchestrator.py`) of the docintel repository.

Modelling conventions:
* Python dict payloads exchanged with the external capabilities are modelled
  by typed structures whose optional keys become `Option` fields (mirroring
  the code's `.get(key, default)` accesses).
* The JSON value returned by the text-generation capability for query
  decomposition / refinement is modelled by the inductive `Json`;
  `json.loads` itself (external library code) is treated as an oracle: the
  generation capability directly yields `Option Json`, where `none` stands
  for "the reply did not parse" (any exception inside the `try` block).
* Async effects are sequentialised: the orchestrator is single-threaded
  cooperative code, and `asyncio.gather` returns its results positionally,
  so the parallel research fan-out is embedded as an in-order traversal
  that performs all calls between task creation and status update.
* Exceptions are modelled with `Except Err`; mutation of the
  `WorkflowExecution` record (task list, current iteration, final result)
  is explicit state passing through `OrchState`.  A Python exception leaves
  mutations made so far in place, hence the monad returns the state also on
  the error path.
* Wall-clock fields (`created_at`, `completed_at`, `duration_seconds`) and
  the workflow id are elided: they carry real time, which no claim touches.
-/

namespace DocIntel

/-- JSON values, as produced by parsing a generated reply. -/
inductive Json where
  | str (s : String)
  | num (q : ℚ)
  | bool (b : Bool)
  | null
  | arr (elems : List Json)
  | obj (fields : List (String × Json))

/-- Python-level errors surfaced by the orchestrator. -/
inductive Err where
  | capability (msg : String)
  | keyError (key : String)
  | typeError
  | valueError (msg : String)
deriving DecidableEq

/-- Python subscript `j[k]` on a parsed JSON value: KeyError on a dict
without the key, TypeError when `j` is not a dict. -/
def Json.index (j : Json) (k : String) : Except Err Json :=
  match j with
  | .obj fields =>
    match fields.lookup k with
    | some v => .ok v
    | none => .error (.keyError k)
  | _ => .error .typeError

/-- Python iteration (`enumerate(x)`) over a parsed JSON value: lists yield
their elements, strings their one-character substrings, dicts their keys;
numbers, booleans and null are not iterable (TypeError). -/
def Json.pyIter : Json → Except Err (List Json)
  | .arr elems => .ok elems
  | .str s => .ok (s.toList.map fun c => .str (String.mk [c]))
  | .obj fields => .ok (fields.map fun kv => .str kv.1)
  | _ => .error .typeError

/-- Result payload of the research capability
(`{sources: [...], answer, ...}`); `sources` is `none` when the key is
absent (the scorer reads it with `.get("sources", [])`). -/
structure ResearchResult where
  sources : Option (List Json)
  answer : String

/-- Result payload of the analysis capability; `status` is read by the
scorer with `.get("status")`. -/
structure AnalysisResult where
  status : Option String
  payload : String
deriving DecidableEq

/-- Result payload of the citation capability; `accuracy` is read by the
scorer with `.get("accuracy", 0.0)`. -/
structure CitationResult where
  accuracy : Option ℚ
  payload : String
deriving DecidableEq, Inhabited

/-- A stored specialist-agent result (the `task.result` field). -/
inductive TaskResult where
  | research (r : ResearchResult)
  | analysis (a : AnalysisResult)
  | citation (c : CitationResult)

/-- The `context` dict attached to a task at creation. -/
inductive TaskContext where
  | empty
  | research (rs : List ResearchResult)
  | analysis (as' : List AnalysisResult)

/-- `AgentTask` (orchestrator.py lines 13-23), minus the wall-clock
timestamps.  `status` ranges over "pending", "in_progress", "completed",
"failed" as in the source comment. -/
structure AgentTask where
  taskId : String
  agentType : String
  query : Json
  context : TaskContext
  status : String
  result : Option TaskResult

/-- Prompts sent to the text-generation capability, identified by their
semantic payload (the literal prompt strings are irrelevant to behaviour). -/
inductive Prompt where
  | decompose (userQuery : String)
  | refine (researchQueries : Json) (numResults : Nat) (qualityScore : ℚ)
  | synthesize (userQuery : String) (research : List ResearchResult)
      (analysis : List AnalysisResult) (citation : CitationResult)

/-- One entry of the capability-call log (used to state which external
calls a run performs, and in which order). -/
inductive CallKind where
  | generate (p : Prompt)
  | research (query : Json)
  | analysis (task : Json)
  | citation

/-- Whether a log entry is a citation-capability call. -/
def CallKind.isCitation : CallKind → Bool
  | .citation => true
  | _ => false

/-- The external capabilities (deterministic, possibly-throwing functions;
§6 of the design).  `generateParsed` is the text-generation capability
composed with the JSON-extraction oracle (`.ok none` = reply unparsable);
`generateText` is the same capability where the raw text is kept. -/
structure Caps where
  generateParsed : Prompt → Except Err (Option Json)
  generateText : Prompt → Except Err String
  research : Json → Except Err ResearchResult
  analysis : Json → List ResearchResult → Except Err AnalysisResult
  citation : List AnalysisResult → List ResearchResult → Except Err CitationResult

/-- Result dict of `_execute_sequential` / `_execute_parallel`. -/
structure SeqResult where
  pattern : String
  researchResults : List ResearchResult
  analysisResults : List AnalysisResult
  citationResult : CitationResult
  finalAnswer : String
deriving Inhabited

/-- One entry of the loop strategy's `results["iterations"]` list. -/
structure IterationResult where
  iteration : Nat
  research : List ResearchResult
  analysis : List AnalysisResult
  citation : CitationResult
  qualityScore : ℚ

/-- Result dict of `_execute_loop`.  `converged`/`convergenceIteration` are
`none` when the corresponding dict keys were never set. -/
structure LoopResult where
  iterations : List IterationResult
  converged : Option Bool
  convergenceIteration : Option Nat
  finalAnswer : String
  bestQualityScore : ℚ
deriving Inhabited

/-- The strategy result stored into `workflow.final_result`. -/
inductive StrategyResult where
  | pipeline (r : SeqResult)
  | loop (r : LoopResult)

/-- Mutable workflow state threaded through one `execute_workflow` call:
the appended task list, the capability-call log, `current_iteration` and
`final_result` of the `WorkflowExecution` record. -/
structure OrchState where
  tasks : List AgentTask
  calls : List CallKind
  currentIteration : Nat
  finalResult : Option StrategyResult

/-- Fresh `WorkflowExecution` state (line 85-89). -/
def initState : OrchState :=
  { tasks := [], calls := [], currentIteration := 0, finalResult := none }

/-- The orchestrator monad: explicit state plus Python exceptions; the
state is returned on the error path too, since a raised exception leaves
earlier mutations in place. -/
def OrchM (α : Type) : Type := OrchState → Except Err α × OrchState

/-- Sequencing in `OrchM` (mirrors Python statement order with exception
short-circuiting). -/
def bindM {α β : Type} (x : OrchM α) (f : α → OrchM β) : OrchM β := fun s =>
  match x s with
  | (.ok a, s') => f a s'
  | (.error e, s') => (.error e, s')

/-- Returning a value without touching state. -/
def pureM {α : Type} (a : α) : OrchM α := fun s => (.ok a, s)

/-- Raising a Python exception. -/
def failM {α : Type} (e : Err) : OrchM α := fun s => (.error e, s)

/-- Evaluating a pure possibly-raising expression. -/
def liftExcept {α : Type} (x : Except Err α) : OrchM α := fun s => (x, s)

/-- Appending one entry to the capability-call log. -/
def logCall (c : CallKind) : OrchM Unit := fun s =>
  (.ok (), { s with calls := s.calls ++ [c] })

/-- `workflow.current_iteration = iteration + 1` (line 403). -/
def setCurrentIteration (n : Nat) : OrchM Unit := fun s =>
  (.ok (), { s with currentIteration := n })

/-- `workflow.final_result = result` (line 104). -/
def setFinalResult (r : StrategyResult) : OrchM Unit := fun s =>
  (.ok (), { s with finalResult := some r })

/-- Rewriting the most recently appended element of a list (in-place
mutation of the task object the strategy just appended). -/
def modifyLast {α : Type} (f : α → α) : List α → List α
  | [] => []
  | [x] => [f x]
  | x :: y :: xs => x :: modifyLast f (y :: xs)

/-- `_evaluate_quality` (lines 525-561): weighted average of the clamped
source count, the raw citation accuracy (`.get("accuracy", 0.0)`), and the
fraction of analysis results whose status is "completed". -/
def evaluateQuality (researchResults : List ResearchResult)
    (analysisResults : List AnalysisResult) (citationResult : CitationResult) : ℚ :=
  let totalSources : ℕ :=
    (researchResults.map fun r => (r.sources.getD []).length).sum
  let citationAccuracy : ℚ := citationResult.accuracy.getD 0
  let analysisCompleteness : ℚ :=
    ((analysisResults.filter fun a => a.status == some "completed").length : ℚ) /
      ((max analysisResults.length 1 : ℕ) : ℚ)
  min ((totalSources : ℚ) / 10) 1 * (3 / 10) +
    citationAccuracy * (1 / 2) +
    analysisCompleteness * (1 / 5)

/-- Python's `max(xs, key=f)`: scans left to right, replacing the current
best only on a strictly larger key, hence returns the first maximum; `none`
on the empty list (`ValueError` in Python). -/
def pyMaxBy {α : Type} (f : α → ℚ) : List α → Option α
  | [] => none
  | x :: xs => some (xs.foldl (fun best y => if f best < f y then y else best) x)

/-- `_decompose_query` fallback dict (lines 168-173), returned when the
reply could not be parsed. -/
def fallbackDecomposition (userQuery : String) : Json :=
  .obj [("research_queries", .arr [.str userQuery]),
        ("analysis_tasks", .arr [.str "Analyze retrieved information"]),
        ("citation_requirements", .arr [.str "Validate all claims"]),
        ("complexity", .str "simple")]

/-- `_decompose_query` (lines 126-173): one text-generation call; an
unparsable reply (`.ok none`) yields the fallback decomposition, a parsed
reply is returned as-is (no shape validation), a thrown generation error
propagates. -/
def decomposeQuery (env : Caps) (userQuery : String) : OrchM Json :=
  bindM (logCall (.generate (.decompose userQuery))) fun _ =>
  bindM (liftExcept (env.generateParsed (.decompose userQuery))) fun parsed =>
  match parsed with
  | none => pureM (fallbackDecomposition userQuery)
  | some j => pureM j

/-- `_refine_decomposition` (lines 563-601): the prompt interpolation reads
`decomposition['research_queries']` (line 573, may raise), then one
text-generation call; an unparsable reply returns the previous
decomposition unchanged, a parsed reply replaces it. -/
def refineDecomposition (env : Caps) (decomposition : Json)
    (researchResults : List ResearchResult) (qualityScore : ℚ) : OrchM Json :=
  bindM (liftExcept (decomposition.index "research_queries")) fun rq =>
  bindM (logCall (.generate (.refine rq researchResults.length qualityScore))) fun _ =>
  bindM (liftExcept (env.generateParsed (.refine rq researchResults.length qualityScore))) fun parsed =>
  match parsed with
  | none => pureM decomposition
  | some j => pureM j

/-- One inline task execution (the repeated block at e.g. lines 194-205):
append the task, mark it `in_progress`, invoke the capability (logged), on
success store the result and mark `completed`; a thrown capability error
propagates and leaves the task `in_progress`.  The transient `pending`
state between construction and the status assignment is unobservable in
this single-threaded code. -/
def runTaskCall {β : Type} (call : CallKind) (taskId agentType : String)
    (query : Json) (ctx : TaskContext) (cap : Except Err β)
    (wrap : β → TaskResult) : OrchM β := fun s =>
  let s := { s with tasks := s.tasks ++
    [({ taskId, agentType, query, context := ctx, status := "in_progress",
        result := none } : AgentTask)] }
  let s := { s with calls := s.calls ++ [call] }
  match cap with
  | .error e => (.error e, s)
  | .ok b =>
    (.ok b, { s with tasks := (modifyLast
      (fun t => { t with status := "completed", result := some (wrap b) }) s.tasks) })

/-- The research stage loop (`for idx, query in enumerate(...)`), shared
verbatim by the sequential and loop strategies (lines 192-207, 411-426);
`mkId` renders the per-variant task-id template. -/
def researchLoop (env : Caps) (mkId : Nat → String) :
    List Json → Nat → OrchM (List ResearchResult)
  | [], _ => pureM []
  | q :: qs, idx =>
    bindM (runTaskCall (.research q) (mkId idx) "research" q .empty
        (env.research q) .research) fun r =>
    bindM (researchLoop env mkId qs (idx + 1)) fun rest =>
    pureM (r :: rest)

/-- The analysis stage loop (lines 215-234, 323-342, 434-453): each task's
context carries the full research result set. -/
def analysisLoop (env : Caps) (mkId : Nat → String)
    (researchResults : List ResearchResult) :
    List Json → Nat → OrchM (List AnalysisResult)
  | [], _ => pureM []
  | t :: ts, idx =>
    bindM (runTaskCall (.analysis t) (mkId idx) "analysis" t
        (.research researchResults) (env.analysis t researchResults) .analysis) fun a =>
    bindM (analysisLoop env mkId researchResults ts (idx + 1)) fun rest =>
    pureM (a :: rest)

/-- The single citation-validation task (lines 242-257, 350-365, 461-476). -/
def runCitation (env : Caps) (taskId : String)
    (analysisResults : List AnalysisResult)
    (researchResults : List ResearchResult) : OrchM CitationResult :=
  runTaskCall .citation taskId "citation" (.str "Validate all citations")
    (.analysis analysisResults) (env.citation analysisResults researchResults) .citation

/-- `_synthesize_answer` (lines 603-635): one text-generation call whose
prompt renders the three result sets; the raw reply text is the answer. -/
def synthesizeAnswer (env : Caps) (userQuery : String)
    (researchResults : List ResearchResult) (analysisResults : List AnalysisResult)
    (citationResult : CitationResult) : OrchM String :=
  bindM (logCall (.generate (.synthesize userQuery researchResults analysisResults citationResult))) fun _ =>
  liftExcept (env.generateText (.synthesize userQuery researchResults analysisResults citationResult))

/-- `_execute_sequential` (lines 175-273). -/
def executeSequential (env : Caps) (userQuery : String) (decomposition : Json) :
    OrchM SeqResult :=
  bindM (liftExcept (decomposition.index "research_queries")) fun rq =>
  bindM (liftExcept rq.pyIter) fun queries =>
  bindM (researchLoop env (fun i => "research_" ++ toString i) queries 0) fun researchResults =>
  bindM (liftExcept (decomposition.index "analysis_tasks")) fun at' =>
  bindM (liftExcept at'.pyIter) fun atasks =>
  bindM (analysisLoop env (fun i => "analysis_" ++ toString i) researchResults atasks 0) fun analysisResults =>
  bindM (runCitation env "citation_validation" analysisResults researchResults) fun citationResult =>
  bindM (synthesizeAnswer env userQuery researchResults analysisResults citationResult) fun finalAnswer =>
  pureM { pattern := "sequential", researchResults, analysisResults, citationResult, finalAnswer }

/-- Parallel research fan-out, first half (lines 295-305): every research
task is created and marked `in_progress` before any call settles. -/
def appendResearchTasks : List Json → Nat → OrchM Unit
  | [], _ => pureM ()
  | q :: qs, idx => fun s =>
    appendResearchTasks qs (idx + 1)
      { s with tasks := s.tasks ++
        [{ taskId := "research_" ++ toString idx, agentType := "research",
           query := q, context := .empty, status := "in_progress", result := none }] }

/-- `asyncio.gather` over the research coroutines (line 308): all calls are
issued and the result list is positionally paired with the argument list;
with deterministic capabilities the scheduling order is unobservable, and a
failure propagates the thrown error. -/
def gatherResearch (env : Caps) : List Json → OrchM (List ResearchResult)
  | [] => pureM []
  | q :: qs =>
    bindM (logCall (.research q)) fun _ =>
    bindM (liftExcept (env.research q)) fun r =>
    bindM (gatherResearch env qs) fun rest =>
    pureM (r :: rest)

/-- Post-join status update (lines 311-314): `zip(agent_tasks, results)`
marks the created tasks (the last `n` appended) completed, positionally. -/
def markResearchCompleted (results : List ResearchResult) : OrchM Unit := fun s =>
  let keep := s.tasks.take (s.tasks.length - results.length)
  let created := s.tasks.drop (s.tasks.length - results.length)
  (.ok (), { s with tasks := (keep ++ (created.zip results).map
    fun tr => { tr.1 with status := "completed", result := some (.research tr.2) }) })

/-- `_execute_parallel` (lines 275-381): parallel research fan-out/join,
then the same sequential analysis and citation stages. -/
def executeParallel (env : Caps) (userQuery : String) (decomposition : Json) :
    OrchM SeqResult :=
  bindM (liftExcept (decomposition.index "research_queries")) fun rq =>
  bindM (liftExcept rq.pyIter) fun queries =>
  bindM (appendResearchTasks queries 0) fun _ =>
  bindM (gatherResearch env queries) fun researchResults =>
  bindM (markResearchCompleted researchResults) fun _ =>
  bindM (liftExcept (decomposition.index "analysis_tasks")) fun at' =>
  bindM (liftExcept at'.pyIter) fun atasks =>
  bindM (analysisLoop env (fun i => "analysis_" ++ toString i) researchResults atasks 0) fun analysisResults =>
  bindM (runCitation env "citation_validation" analysisResults researchResults) fun citationResult =>
  bindM (synthesizeAnswer env userQuery researchResults analysisResults citationResult) fun finalAnswer =>
  pureM { pattern := "parallel", researchResults, analysisResults, citationResult, finalAnswer }

/-- The body of `for iteration in range(max_iterations)` (lines 402-505),
with `remaining = max_iterations - iteration` as fuel.  Returns the
accumulated `results["iterations"]` list and the `converged` /
`convergence_iteration` keys (`none` while never assigned). -/
def loopIter (env : Caps) (qualityThreshold : ℚ) (maxIterations : Nat) :
    Nat → Nat → Json → List IterationResult →
    OrchM (List IterationResult × Option Bool × Option Nat)
  | 0, _, _, acc => pureM (acc, none, none)
  | remaining + 1, iteration, decomposition, acc =>
    bindM (setCurrentIteration (iteration + 1)) fun _ =>
    bindM (liftExcept (decomposition.index "research_queries")) fun rq =>
    bindM (liftExcept rq.pyIter) fun queries =>
    bindM (researchLoop env
        (fun i => "research_" ++ toString iteration ++ "_" ++ toString i)
        queries 0) fun researchResults =>
    bindM (liftExcept (decomposition.index "analysis_tasks")) fun at' =>
    bindM (liftExcept at'.pyIter) fun atasks =>
    bindM (analysisLoop env
        (fun i => "analysis_" ++ toString iteration ++ "_" ++ toString i)
        researchResults atasks 0) fun analysisResults =>
    bindM (runCitation env ("citation_" ++ toString iteration)
        analysisResults researchResults) fun citationResult =>
    let qualityScore := evaluateQuality researchResults analysisResults citationResult
    let acc := acc ++
      [{ iteration := iteration + 1, research := researchResults,
         analysis := analysisResults, citation := citationResult,
         qualityScore := qualityScore }]
    if qualityThreshold ≤ qualityScore then
      pureM (acc, some true, some (iteration + 1))
    else if iteration < maxIterations - 1 then
      bindM (refineDecomposition env decomposition researchResults qualityScore) fun d2 =>
      loopIter env qualityThreshold maxIterations remaining (iteration + 1) d2 acc
    else
      loopIter env qualityThreshold maxIterations remaining (iteration + 1) decomposition acc

/-- `_execute_loop` (lines 383-523): run up to `max_iterations` passes,
then synthesize from the best-scoring recorded pass (`max` with the
`quality_score` key; `ValueError` if no pass ran). -/
def executeLoop (env : Caps) (userQuery : String) (decomposition : Json)
    (maxIterations : Nat) (qualityThreshold : ℚ) : OrchM LoopResult :=
  bindM (loopIter env qualityThreshold maxIterations maxIterations 0 decomposition []) fun out =>
  match pyMaxBy (fun ir => ir.qualityScore) out.1 with
  | none => failM (.valueError "max() arg is an empty sequence")
  | some best =>
    bindM (synthesizeAnswer env userQuery best.research best.analysis best.citation) fun finalAnswer =>
    pureM { iterations := out.1, converged := out.2.1,
            convergenceIteration := out.2.2, finalAnswer,
            bestQualityScore := best.qualityScore }

/-- Caller-facing payload of `execute_workflow` (lines 107-124), minus the
wall-clock duration and the timestamp-derived workflow id. -/
structure WorkflowOutput where
  result : StrategyResult
  executionPattern : String
  totalTasks : Nat
  iterationsMeta : Nat
  tasksMeta : List (String × String × String)

/-- `execute_workflow` (lines 68-124): decompose first, then dispatch on
the pattern string (unknown patterns raise `ValueError`), store the final
result, and report metadata.  `max_iterations = 3` and
`quality_threshold = 0.85` are the `WorkflowExecution` defaults, never
overridden by this code. -/
def executeWorkflow (env : Caps) (userQuery : String) (pattern : String) :
    OrchM WorkflowOutput :=
  bindM (decomposeQuery env userQuery) fun decomposition =>
  bindM
    (if pattern = "sequential" then
      bindM (executeSequential env userQuery decomposition) fun r =>
      pureM (StrategyResult.pipeline r)
    else if pattern = "parallel" then
      bindM (executeParallel env userQuery decomposition) fun r =>
      pureM (StrategyResult.pipeline r)
    else if pattern = "loop" then
      bindM (executeLoop env userQuery decomposition 3 (17 / 20)) fun r =>
      pureM (StrategyResult.loop r)
    else
      failM (.valueError ("Unknown execution pattern: " ++ pattern))) fun result =>
  bindM (setFinalResult result) fun _ => fun s =>
  (.ok { result, executionPattern := pattern, totalTasks := s.tasks.length,
         iterationsMeta := if pattern = "loop" then s.currentIteration else 1,
         tasksMeta := s.tasks.map fun t => (t.taskId, t.agentType, t.status) }, s)

/-! Pure value functions: the `Except`-valued results that the stage loops
compute, with the task/log bookkeeping stripped.  Used to state that those
results do not depend on the threaded workflow state. -/

/-- Value computed by the research stage (in decomposition order). -/
def researchPure (env : Caps) : List Json → Except Err (List ResearchResult)
  | [] => .ok []
  | q :: qs =>
    match env.research q with
    | .error e => .error e
    | .ok r =>
      match researchPure env qs with
      | .error e => .error e
      | .ok rest => .ok (r :: rest)

/-- Value computed by the analysis stage over a fixed research result set. -/
def analysisPure (env : Caps) (researchResults : List ResearchResult) :
    List Json → Except Err (List AnalysisResult)
  | [] => .ok []
  | t :: ts =>
    match env.analysis t researchResults with
    | .error e => .error e
    | .ok a =>
      match analysisPure env researchResults ts with
      | .error e => .error e
      | .ok rest => .ok (a :: rest)

/-- Value of one full research → analysis → citation → synthesis pass over
a decomposition (shared by the sequential and parallel strategies). -/
def pipelineCore (env : Caps) (userQuery : String) (decomposition : Json) :
    Except Err (List ResearchResult × List AnalysisResult × CitationResult × String) :=
  match decomposition.index "research_queries" with
  | .error e => .error e
  | .ok rq =>
  match rq.pyIter with
  | .error e => .error e
  | .ok queries =>
  match researchPure env queries with
  | .error e => .error e
  | .ok rs =>
  match decomposition.index "analysis_tasks" with
  | .error e => .error e
  | .ok at' =>
  match at'.pyIter with
  | .error e => .error e
  | .ok atasks =>
  match analysisPure env rs atasks with
  | .error e => .error e
  | .ok as' =>
  match env.citation as' rs with
  | .error e => .error e
  | .ok c =>
  match env.generateText (.synthesize userQuery rs as' c) with
  | .error e => .error e
  | .ok fa => .ok (rs, as', c, fa)

/-- Packaging of a pipeline value as the strategy's result dict. -/
def mkPipelineResult (pattern : String)
    (x : List ResearchResult × List AnalysisResult × CitationResult × String) :
    SeqResult :=
  { pattern, researchResults := x.1, analysisResults := x.2.1,
    citationResult := x.2.2.1, finalAnswer := x.2.2.2 }

/-- The research-capability calls a research stage performs (stops after a
throwing call). -/
def researchCallTrace (env : Caps) : List Json → List CallKind
  | [] => []
  | q :: qs =>
    .research q ::
      (match env.research q with
       | .ok _ => researchCallTrace env qs
       | .error _ => [])

/-- The analysis-capability calls an analysis stage performs. -/
def analysisCallTrace (env : Caps) (rs : List ResearchResult) :
    List Json → List CallKind
  | [] => []
  | t :: ts =>
    .analysis t ::
      (match env.analysis t rs with
       | .ok _ => analysisCallTrace env rs ts
       | .error _ => [])

/-- The full capability-call trace of one sequential/parallel pipeline pass
(excluding the decomposition call, which `execute_workflow` performs). -/
def pipelineCallTrace (env : Caps) (userQuery : String) (decomposition : Json) :
    List CallKind :=
  match decomposition.index "research_queries" with
  | .error _ => []
  | .ok rq =>
  match rq.pyIter with
  | .error _ => []
  | .ok queries =>
  researchCallTrace env queries ++
  (match researchPure env queries with
   | .error _ => []
   | .ok rs =>
   match decomposition.index "analysis_tasks" with
   | .error _ => []
   | .ok at' =>
   match at'.pyIter with
   | .error _ => []
   | .ok atasks =>
   analysisCallTrace env rs atasks ++
   (match analysisPure env rs atasks with
    | .error _ => []
    | .ok as' =>
    CallKind.citation ::
    (match env.citation as' rs with
     | .error _ => []
     | .ok c =>
     [.generate (.synthesize userQuery rs as' c)])))

/-- Number of research-capability calls in a log. -/
def countResearchCalls (l : List CallKind) : Nat :=
  (l.filter fun c => match c with | .research _ => true | _ => false).length

/-! Deterministic capability stubs used to instantiate the claims'
concrete scenarios. -/

/-- Decomposition with one research query "q1" and one analysis task. -/
def d1 : Json :=
  .obj [("research_queries", .arr [.str "q1"]),
        ("analysis_tasks", .arr [.str "t"]),
        ("citation_requirements", .arr [.str "c"]),
        ("complexity", .str "simple")]

/-- Refined decomposition with the single research query "q2". -/
def d2 : Json :=
  .obj [("research_queries", .arr [.str "q2"]),
        ("analysis_tasks", .arr [.str "t"]),
        ("citation_requirements", .arr [.str "c"]),
        ("complexity", .str "simple")]

/-- Stub capabilities realising per-pass quality scores 0.5, 0.9, ... for
the convergence scenario: pass 1 (query "q1") yields no sources, accuracy
1.0 and an incomplete analysis (score 0.5); refinement switches to "q2",
whose pass yields 10 sources, accuracy 0.8 and a completed analysis
(score 0.3 + 0.4 + 0.2 = 0.9).  The synthesizer encodes which research
results it was given in the returned text. -/
def envC1 : Caps where
  generateParsed := fun p =>
    match p with
    | .decompose _ => .ok (some d1)
    | .refine _ _ _ => .ok (some d2)
    | _ => .ok none
  generateText := fun p =>
    match p with
    | .synthesize _ rs _ _ =>
      .ok ("synth-" ++ (match rs with | [r] => r.answer | _ => "?"))
    | _ => .ok "text"
  research := fun q =>
    match q with
    | .str "q1" => .ok { sources := some [], answer := "a1" }
    | _ => .ok { sources := some (List.replicate 10 (Json.str "s")), answer := "a2" }
  analysis := fun _ ctx =>
    match ctx with
    | [{ sources := _, answer := "a2" }] => .ok { status := some "completed", payload := "p" }
    | _ => .ok { status := none, payload := "p" }
  citation := fun _ rs =>
    match rs with
    | [{ sources := _, answer := "a1" }] => .ok { accuracy := some 1, payload := "c" }
    | _ => .ok { accuracy := some (4 / 5), payload := "c" }

/-- The run of the loop strategy on the convergence scenario. -/
def c1pair : Except Err LoopResult × OrchState :=
  executeLoop envC1 "uq" d1 3 (17 / 20) initState

/-- Its successful result value. -/
def c1lr : LoopResult :=
  match c1pair.1 with
  | .ok lr => lr
  | .error _ => default

/-- Decompositions for the never-converging scenario (queries q1, q2, q3). -/
def e1 : Json :=
  .obj [("research_queries", .arr [.str "q1"]), ("analysis_tasks", .arr [.str "t"])]

/-- Second-pass decomposition of the never-converging scenario. -/
def e2 : Json :=
  .obj [("research_queries", .arr [.str "q2"]), ("analysis_tasks", .arr [.str "t"])]

/-- Third-pass decomposition of the never-converging scenario. -/
def e3 : Json :=
  .obj [("research_queries", .arr [.str "q3"]), ("analysis_tasks", .arr [.str "t"])]

/-- Stub capabilities realising per-pass quality scores 0.2, 0.3, 0.4
(citation accuracies 0.4, 0.6, 0.8 with no sources and no completed
analyses), never reaching the 0.85 threshold. -/
def envC2 : Caps where
  generateParsed := fun p =>
    match p with
    | .decompose _ => .ok (some e1)
    | .refine (.arr [.str "q1"]) _ _ => .ok (some e2)
    | .refine _ _ _ => .ok (some e3)
    | _ => .ok none
  generateText := fun p =>
    match p with
    | .synthesize _ rs _ _ =>
      .ok ("synth-" ++ (match rs with | [r] => r.answer | _ => "?"))
    | _ => .ok "text"
  research := fun q =>
    match q with
    | .str "q1" => .ok { sources := none, answer := "a1" }
    | .str "q2" => .ok { sources := none, answer := "a2" }
    | _ => .ok { sources := none, answer := "a3" }
  analysis := fun _ _ => .ok { status := none, payload := "p" }
  citation := fun _ rs =>
    match rs with
    | [{ sources := _, answer := "a1" }] => .ok { accuracy := some (2 / 5), payload := "c" }
    | [{ sources := _, answer := "a2" }] => .ok { accuracy := some (3 / 5), payload := "c" }
    | _ => .ok { accuracy := some (4 / 5), payload := "c" }

/-- The run of the loop strategy on the never-converging scenario. -/
def c2pair : Except Err LoopResult × OrchState :=
  executeLoop envC2 "uq" e1 3 (17 / 20) initState

/-- Its successful result value. -/
def c2lr : LoopResult :=
  match c2pair.1 with
  | .ok lr => lr
  | .error _ => default

/-- An always-succeeding deterministic stub environment: each research
query returns one fixed source and echoes the query, analyses complete,
citation reports full accuracy. -/
def envS : Caps where
  generateParsed := fun _ => .ok none
  generateText := fun _ => .ok "final"
  research := fun q =>
    .ok { sources := some [.str "s"],
          answer := (match q with | .str s => s | _ => "?") }
  analysis := fun _ ctx => .ok { status := some "completed", payload := toString ctx.length }
  citation := fun as' rs =>
    .ok { accuracy := some 1, payload := toString as'.length ++ "/" ++ toString rs.length }

/-- A parsed reply that is a JSON object, but whose `research_queries`
value is a string rather than a list. -/
def dBad : Json :=
  .obj [("research_queries", .str "q"), ("analysis_tasks", .arr [.str "t"])]

/-- A parsed reply whose `research_queries` is an empty list. -/
def dEmpty : Json :=
  .obj [("research_queries", .arr []), ("analysis_tasks", .arr [.str "t"])]

/-- A three-query, two-task decomposition for the sequential/parallel
comparison. -/
def d3 : Json :=
  .obj [("research_queries", .arr [.str "x", .str "y", .str "z"]),
        ("analysis_tasks", .arr [.str "t1", .str "t2"])]

/-- Stub environment whose research capability always throws. -/
def envFail : Caps :=
  { envS with research := fun _ => .error (.capability "boom"),
              generateParsed := fun _ => .ok (some e1) }

/-- Stub environment whose analysis capability always throws. -/
def envAnaFail : Caps :=
  { envS with analysis := fun _ _ => .error (.capability "ana"),
              generateParsed := fun _ => .ok (some e1) }

/-- The tail of one loop iteration (lines 490-505): record the iteration,
test convergence, refine unless this was the last allowed iteration.
Extracted verbatim from the body of `loopIter` so one pipeline pass can be
reasoned about in isolation. -/
def loopTail (env : Caps) (qualityThreshold : ℚ) (maxIterations remaining iteration : Nat)
    (decomposition : Json) (researchResults : List ResearchResult)
    (analysisResults : List AnalysisResult) (citationResult : CitationResult)
    (acc : List IterationResult) :
    OrchM (List IterationResult × Option Bool × Option Nat) :=
  let qualityScore := evaluateQuality researchResults analysisResults citationResult
  let acc := acc ++
    [{ iteration := iteration + 1, research := researchResults,
       analysis := analysisResults, citation := citationResult,
       qualityScore := qualityScore }]
  if qualityThreshold ≤ qualityScore then
    pureM (acc, some true, some (iteration + 1))
  else if iteration < maxIterations - 1 then
    bindM (refineDecomposition env decomposition researchResults qualityScore) fun d2 =>
    loopIter env qualityThreshold maxIterations remaining (iteration + 1) d2 acc
  else
    loopIter env qualityThreshold maxIterations remaining (iteration + 1) decomposition acc

/-- Research result of the convergence scenario's first pass. -/
def rC1a : ResearchResult := { sources := some [], answer := "a1" }

/-- Analysis result of the convergence scenario's first pass. -/
def aC1a : AnalysisResult := { status := none, payload := "p" }

/-- Citation result of the convergence scenario's first pass. -/
def cC1a : CitationResult := { accuracy := some 1, payload := "c" }

/-- Research result of the convergence scenario's second pass. -/
def rC1b : ResearchResult :=
  { sources := some (List.replicate 10 (Json.str "s")), answer := "a2" }

/-- Analysis result of the convergence scenario's second pass. -/
def aC1b : AnalysisResult := { status := some "completed", payload := "p" }

/-- Citation result of the convergence scenario's second pass. -/
def cC1b : CitationResult := { accuracy := some (4 / 5), payload := "c" }

/-- The loop result of the convergence scenario: stops after iteration 2,
converged, synthesized from iteration 2 (the best pass). -/
def loopResultC1 : LoopResult :=
  { iterations :=
      [{ iteration := 1, research := [rC1a], analysis := [aC1a], citation := cC1a,
         qualityScore := 1 / 2 },
       { iteration := 2, research := [rC1b], analysis := [aC1b], citation := cC1b,
         qualityScore := 9 / 10 }],
    converged := some true, convergenceIteration := some 2,
    finalAnswer := "synth-a2", bestQualityScore := 9 / 10 }

/-- Research results of the never-converging scenario's three passes. -/
def rC2a : ResearchResult := { sources := none, answer := "a1" }

/-- Second-pass research result of the never-converging scenario. -/
def rC2b : ResearchResult := { sources := none, answer := "a2" }

/-- Third-pass research result of the never-converging scenario. -/
def rC2c : ResearchResult := { sources := none, answer := "a3" }

/-- Analysis result of every pass of the never-converging scenario. -/
def aC2 : AnalysisResult := { status := none, payload := "p" }

/-- Citation results of the never-converging scenario's three passes. -/
def cC2a : CitationResult := { accuracy := some (2 / 5), payload := "c" }

/-- Second-pass citation result of the never-converging scenario. -/
def cC2b : CitationResult := { accuracy := some (3 / 5), payload := "c" }

/-- Third-pass citation result of the never-converging scenario. -/
def cC2c : CitationResult := { accuracy := some (4 / 5), payload := "c" }

/-- The `results["iterations"]` entry one loop pass appends. -/
def passRecord (iter : Nat) (rs : List ResearchResult)
    (as' : List AnalysisResult) (c : CitationResult) : IterationResult :=
  { iteration := iter + 1, research := rs, analysis := as', citation := c,
    qualityScore := evaluateQuality rs as' c }

/-- The loop strategy's result dict assembled from the recorded iterations,
the best pass and the synthesized answer. -/
def mkLoopResult (out : List IterationResult × Option Bool × Option Nat)
    (best : IterationResult) (fa : String) : LoopResult :=
  { iterations := out.1, converged := out.2.1, convergenceIteration := out.2.2,
    finalAnswer := fa, bestQualityScore := best.qualityScore }

/-- The loop result of the never-converging scenario: all three iterations
run, the `converged` / `convergence_iteration` keys are never set, and the
best (third) pass is synthesized. -/
def loopResultC2 : LoopResult :=
  { iterations :=
      [{ iteration := 1, research := [rC2a], analysis := [aC2], citation := cC2a,
         qualityScore := 1 / 5 },
       { iteration := 2, research := [rC2b], analysis := [aC2], citation := cC2b,
         qualityScore := 3 / 10 },
       { iteration := 3, research := [rC2c], analysis := [aC2], citation := cC2c,
         qualityScore := 2 / 5 }],
    converged := none, convergenceIteration := none,
    finalAnswer := "synth-a3", bestQualityScore := 2 / 5 }

/-- A freshly created task right after its `in_progress` assignment. -/
def inProgressTask (tid aty : String) (q : Json) (ctx : TaskContext) : AgentTask :=
  { taskId := tid, agentType := aty, query := q, context := ctx,
    status := "in_progress", result := none }

/-- A task after a successful capability call. -/
def completedTask (tid aty : String) (q : Json) (ctx : TaskContext)
    (r : TaskResult) : AgentTask :=
  { taskId := tid, agentType := aty, query := q, context := ctx,
    status := "completed", result := some r }

/-! Helper lemmas about the monad and the bookkeeping primitives. -/

theorem bindM_ok {α β : Type} {x : OrchM α} {f : α → OrchM β} {s s' : OrchState}
    {a : α} (h : x s = (.ok a, s')) : bindM x f s = f a s' := by
  simp [bindM, h]

theorem bindM_error {α β : Type} {x : OrchM α} {f : α → OrchM β} {s s' : OrchState}
    {e : Err} (h : x s = (.error e, s')) : bindM x f s = (.error e, s') := by
  simp [bindM, h]

theorem modifyLast_append_singleton {α : Type} (f : α → α) (l : List α) (x : α) :
    modifyLast f (l ++ [x]) = l ++ [f x] := by
  induction l with
  | nil => rfl
  | cons a l ih =>
    cases l with
    | nil => rfl
    | cons b l' =>
      have h : modifyLast f ((a :: b :: l') ++ [x]) =
          a :: modifyLast f ((b :: l') ++ [x]) := rfl
      rw [h, ih]
      rfl

theorem foldlMax_key_le {α : Type} (f : α → ℚ) :
    ∀ (xs : List α) (x : α),
    f x ≤ f (xs.foldl (fun best y => if f best < f y then y else best) x) := by
  intro xs
  induction xs with
  | nil => intro x; exact le_refl _
  | cons z zs ih =>
    intro x
    have hstep : f x ≤ f (if f x < f z then z else x) := by
      by_cases hzx : f x < f z
      · simp [hzx]
        exact le_of_lt hzx
      · simp [hzx]
    exact le_trans hstep (ih (if f x < f z then z else x))

theorem foldlMax_first {α : Type} (f : α → ℚ) :
    ∀ (xs : List α) (x : α),
    ∃ l₁ l₂,
      x :: xs = l₁ ++ (xs.foldl (fun best y => if f best < f y then y else best) x) :: l₂ ∧
      (∀ y ∈ l₁, f y < f (xs.foldl (fun best y => if f best < f y then y else best) x)) ∧
      (∀ y ∈ l₂, f y ≤ f (xs.foldl (fun best y => if f best < f y then y else best) x)) := by
  intro xs
  induction xs with
  | nil =>
    intro x
    exact ⟨[], [], rfl, by simp, by simp⟩
  | cons z zs ih =>
    intro x
    by_cases hzx : f x < f z
    · -- the running best is replaced by `z`
      obtain ⟨l₁, l₂, heq, h₁, h₂⟩ := ih z
      have hfold : (z :: zs).foldl (fun best y => if f best < f y then y else best) x =
          zs.foldl (fun best y => if f best < f y then y else best) z := by
        simp [List.foldl, hzx]
      have hzb : f z ≤ f (zs.foldl (fun best y => if f best < f y then y else best) z) :=
        foldlMax_key_le f zs z
      refine ⟨x :: l₁, l₂, ?_, ?_, ?_⟩
      · rw [hfold]
        simpa using heq
      · intro y hy
        rw [hfold]
        rcases List.mem_cons.mp hy with hy | hy
        · subst hy
          exact lt_of_lt_of_le hzx hzb
        · exact h₁ y hy
      · intro y hy
        rw [hfold]
        exact h₂ y hy
    · -- the running best stays `x`
      obtain ⟨l₁, l₂, heq, h₁, h₂⟩ := ih x
      have hfold : (z :: zs).foldl (fun best y => if f best < f y then y else best) x =
          zs.foldl (fun best y => if f best < f y then y else best) x := by
        simp [List.foldl, hzx]
      cases l₁ with
      | nil =>
        rw [List.nil_append, List.cons.injEq] at heq
        refine ⟨[], z :: zs, ?_, by simp, ?_⟩
        · rw [hfold, ← heq.1]
          rfl
        · intro y hy
          rw [hfold, ← heq.1]
          rcases List.mem_cons.mp hy with hy | hy
          · subst hy
            exact le_of_not_lt hzx
          · rw [heq.1]
            exact h₂ y (heq.2 ▸ hy)
      | cons a l₁' =>
        rw [List.cons_append, List.cons.injEq] at heq
        have hxb : f x < f (zs.foldl (fun best y => if f best < f y then y else best) x) := by
          have := h₁ a (by simp)
          rwa [← heq.1] at this
        refine ⟨x :: z :: l₁', l₂, ?_, ?_, ?_⟩
        · rw [hfold]
          conv_lhs => rw [heq.2]
          rfl
        · intro y hy
          rw [hfold]
          rcases List.mem_cons.mp hy with hy | hy
          · subst hy
            exact hxb
          rcases List.mem_cons.mp hy with hy | hy
          · subst hy
            exact lt_of_le_of_lt (le_of_not_lt hzx) hxb
          · exact h₁ y (by simp [hy])
        · intro y hy
          rw [hfold]
          exact h₂ y hy

theorem pyMaxBy_first_max {α : Type} (f : α → ℚ) (l : List α) (b : α)
    (h : pyMaxBy f l = some b) :
    ∃ l₁ l₂, l = l₁ ++ b :: l₂ ∧ (∀ y ∈ l₁, f y < f b) ∧ (∀ y ∈ l₂, f y ≤ f b) := by
  cases l with
  | nil => simp [pyMaxBy] at h
  | cons x xs =>
    have hb : xs.foldl (fun best y => if f best < f y then y else best) x = b := by
      simpa [pyMaxBy] using h
    obtain ⟨l₁, l₂, heq, h₁, h₂⟩ := foldlMax_first f xs x
    rw [hb] at heq h₁ h₂
    exact ⟨l₁, l₂, heq, h₁, h₂⟩

/-! State-transition characterisations of the task executor and the stage
loops: each returns its pure value and only appends to the task list and
the call log. -/

theorem runTaskCall_error {β : Type} (call : CallKind) (tid aty : String)
    (q : Json) (ctx : TaskContext) (e : Err) (wrap : β → TaskResult) (s : OrchState) :
    runTaskCall call tid aty q ctx (.error e) wrap s =
      (.error e, { s with tasks := s.tasks ++ [inProgressTask tid aty q ctx],
                          calls := s.calls ++ [call] }) := rfl

theorem runTaskCall_ok {β : Type} (call : CallKind) (tid aty : String)
    (q : Json) (ctx : TaskContext) (b : β) (wrap : β → TaskResult) (s : OrchState) :
    runTaskCall call tid aty q ctx (.ok b) wrap s =
      (.ok b, { s with tasks := s.tasks ++ [completedTask tid aty q ctx (wrap b)],
                       calls := s.calls ++ [call] }) := by
  simp only [runTaskCall]
  rw [modifyLast_append_singleton]
  rfl

theorem researchCallTrace_no_citation (env : Caps) :
    ∀ qs, ∀ c ∈ researchCallTrace env qs, c.isCitation = false := by
  intro qs
  induction qs with
  | nil => intro c hc; simp [researchCallTrace] at hc
  | cons q qs ih =>
    intro c hc
    rw [researchCallTrace] at hc
    rcases List.mem_cons.mp hc with hc | hc
    · subst hc; rfl
    · cases hr : env.research q with
      | ok r => rw [hr] at hc; exact ih c hc
      | error e => rw [hr] at hc; simp at hc

theorem analysisCallTrace_no_citation (env : Caps) (rs : List ResearchResult) :
    ∀ ts, ∀ c ∈ analysisCallTrace env rs ts, c.isCitation = false := by
  intro ts
  induction ts with
  | nil => intro c hc; simp [analysisCallTrace] at hc
  | cons t ts ih =>
    intro c hc
    rw [analysisCallTrace] at hc
    rcases List.mem_cons.mp hc with hc | hc
    · subst hc; rfl
    · cases ha : env.analysis t rs with
      | ok a => rw [ha] at hc; exact ih c hc
      | error e => rw [ha] at hc; simp at hc

theorem researchLoop_spec (env : Caps) (mkId : Nat → String) :
    ∀ (qs : List Json) (idx : Nat) (s : OrchState),
    ∃ T, researchLoop env mkId qs idx s =
      (researchPure env qs,
        { s with tasks := s.tasks ++ T, calls := s.calls ++ researchCallTrace env qs }) := by
  intro qs
  induction qs with
  | nil =>
    intro idx s
    refine ⟨[], ?_⟩
    simp [researchLoop, pureM, researchPure, researchCallTrace]
  | cons q qs ih =>
    intro idx s
    cases hr : env.research q with
    | error e =>
      refine ⟨[inProgressTask (mkId idx) "research" q .empty], ?_⟩
      rw [researchLoop, hr, bindM_error (runTaskCall_error _ _ _ _ _ _ _ _)]
      simp [researchPure, researchCallTrace, hr]
    | ok r =>
      have hstep := runTaskCall_ok (.research q) (mkId idx) "research" q .empty r
        TaskResult.research s
      obtain ⟨T, heq⟩ := ih (idx + 1)
        { s with
          tasks := s.tasks ++ [completedTask (mkId idx) "research" q .empty (.research r)],
          calls := s.calls ++ [.research q] }
      refine ⟨completedTask (mkId idx) "research" q .empty (.research r) :: T, ?_⟩
      rw [researchLoop, hr, bindM_ok hstep]
      cases hrest : researchPure env qs with
      | error e =>
        rw [hrest] at heq
        rw [bindM_error heq]
        simp [researchPure, researchCallTrace, hr, hrest]
      | ok rest =>
        rw [hrest] at heq
        rw [bindM_ok heq]
        simp [pureM, researchPure, researchCallTrace, hr, hrest]

theorem analysisLoop_spec (env : Caps) (mkId : Nat → String)
    (researchResults : List ResearchResult) :
    ∀ (ts : List Json) (idx : Nat) (s : OrchState),
    ∃ T, analysisLoop env mkId researchResults ts idx s =
      (analysisPure env researchResults ts,
        { s with tasks := s.tasks ++ T,
                 calls := s.calls ++ analysisCallTrace env researchResults ts }) := by
  intro ts
  induction ts with
  | nil =>
    intro idx s
    refine ⟨[], ?_⟩
    simp [analysisLoop, pureM, analysisPure, analysisCallTrace]
  | cons t ts ih =>
    intro idx s
    cases ha : env.analysis t researchResults with
    | error e =>
      refine ⟨[inProgressTask (mkId idx) "analysis" t (.research researchResults)], ?_⟩
      rw [analysisLoop, ha, bindM_error (runTaskCall_error _ _ _ _ _ _ _ _)]
      simp [analysisPure, analysisCallTrace, ha]
    | ok a =>
      have hstep := runTaskCall_ok (.analysis t) (mkId idx) "analysis" t
        (.research researchResults) a TaskResult.analysis s
      obtain ⟨T, heq⟩ := ih (idx + 1)
        { s with
          tasks := s.tasks ++
            [completedTask (mkId idx) "analysis" t (.research researchResults) (.analysis a)],
          calls := s.calls ++ [.analysis t] }
      refine ⟨completedTask (mkId idx) "analysis" t (.research researchResults)
          (.analysis a) :: T, ?_⟩
      rw [analysisLoop, ha, bindM_ok hstep]
      cases hrest : analysisPure env researchResults ts with
      | error e =>
        rw [hrest] at heq
        rw [bindM_error heq]
        simp [analysisPure, analysisCallTrace, ha, hrest]
      | ok rest =>
        rw [hrest] at heq
        rw [bindM_ok heq]
        simp [pureM, analysisPure, analysisCallTrace, ha, hrest]

theorem gatherResearch_spec (env : Caps) :
    ∀ (qs : List Json) (s : OrchState),
    gatherResearch env qs s =
      (researchPure env qs, { s with calls := s.calls ++ researchCallTrace env qs }) := by
  intro qs
  induction qs with
  | nil =>
    intro s
    simp [gatherResearch, pureM, researchPure, researchCallTrace]
  | cons q qs ih =>
    intro s
    have hlog : logCall (.research q) s =
        (.ok (), { s with calls := s.calls ++ [.research q] }) := rfl
    cases hr : env.research q with
    | error e =>
      have hlift : liftExcept (α := ResearchResult) (env.research q)
          { s with calls := s.calls ++ [.research q] } =
          (.error e, { s with calls := s.calls ++ [.research q] }) := by
        rw [liftExcept, hr]
      rw [gatherResearch, bindM_ok hlog, bindM_error hlift]
      simp [researchPure, researchCallTrace, hr]
    | ok r =>
      have hlift : liftExcept (α := ResearchResult) (env.research q)
          { s with calls := s.calls ++ [.research q] } =
          (.ok r, { s with calls := s.calls ++ [.research q] }) := by
        rw [liftExcept, hr]
      have heq := ih { s with calls := s.calls ++ [.research q] }
      rw [gatherResearch, bindM_ok hlog, bindM_ok hlift]
      cases hrest : researchPure env qs with
      | error e =>
        rw [hrest] at heq
        rw [bindM_error heq]
        simp [researchPure, researchCallTrace, hr, hrest]
      | ok rest =>
        rw [hrest] at heq
        rw [bindM_ok heq]
        simp [pureM, researchPure, researchCallTrace, hr, hrest]

theorem appendResearchTasks_spec :
    ∀ (qs : List Json) (idx : Nat) (s : OrchState),
    ∃ T, appendResearchTasks qs idx s = (.ok (), { s with tasks := s.tasks ++ T }) := by
  intro qs
  induction qs with
  | nil =>
    intro idx s
    refine ⟨[], ?_⟩
    simp [appendResearchTasks, pureM]
  | cons q qs ih =>
    intro idx s
    obtain ⟨T, heq⟩ := ih (idx + 1)
      { s with tasks := s.tasks ++
        [inProgressTask ("research_" ++ toString idx) "research" q .empty] }
    refine ⟨inProgressTask ("research_" ++ toString idx) "research" q .empty :: T, ?_⟩
    simp only [appendResearchTasks, inProgressTask] at heq ⊢
    rw [heq]
    simp

theorem markResearchCompleted_spec (results : List ResearchResult) (s : OrchState) :
    ∃ tasks', markResearchCompleted results s = (.ok (), { s with tasks := tasks' }) :=
  ⟨_, rfl⟩

theorem runCitation_spec (env : Caps) (tid : String)
    (analysisResults : List AnalysisResult) (researchResults : List ResearchResult)
    (s : OrchState) :
    ∃ T, runCitation env tid analysisResults researchResults s =
      (env.citation analysisResults researchResults,
        { s with tasks := s.tasks ++ T, calls := s.calls ++ [.citation] }) := by
  cases hc : env.citation analysisResults researchResults with
  | error e =>
    refine ⟨[inProgressTask tid "citation" (.str "Validate all citations")
      (.analysis analysisResults)], ?_⟩
    rw [runCitation, hc, runTaskCall_error]
  | ok c =>
    refine ⟨[completedTask tid "citation" (.str "Validate all citations")
      (.analysis analysisResults) (.citation c)], ?_⟩
    rw [runCitation, hc, runTaskCall_ok]

theorem synthesizeAnswer_spec (env : Caps) (uq : String)
    (rs : List ResearchResult) (as' : List AnalysisResult) (c : CitationResult)
    (s : OrchState) :
    synthesizeAnswer env uq rs as' c s =
      (env.generateText (.synthesize uq rs as' c),
        { s with calls := s.calls ++ [.generate (.synthesize uq rs as' c)] }) := rfl

theorem bindM_liftExcept_ok {α β : Type} {x : Except Err α} {a : α}
    (h : x = .ok a) (f : α → OrchM β) (s : OrchState) :
    bindM (liftExcept x) f s = f a s := by
  simp [bindM, liftExcept, h]

theorem bindM_liftExcept_error {α β : Type} {x : Except Err α} {e : Err}
    (h : x = .error e) (f : α → OrchM β) (s : OrchState) :
    bindM (liftExcept x) f s = (.error e, s) := by
  simp [bindM, liftExcept, h]

theorem bindM_synth_ok {env : Caps} {uq : String} {rs : List ResearchResult}
    {as' : List AnalysisResult} {c : CitationResult} {fa : String}
    (h : env.generateText (.synthesize uq rs as' c) = .ok fa)
    {β : Type} (f : String → OrchM β) (s : OrchState) :
    bindM (synthesizeAnswer env uq rs as' c) f s =
      f fa { s with calls := s.calls ++ [.generate (.synthesize uq rs as' c)] } := by
  simp [bindM, synthesizeAnswer_spec, h]

theorem bindM_synth_error {env : Caps} {uq : String} {rs : List ResearchResult}
    {as' : List AnalysisResult} {c : CitationResult} {e : Err}
    (h : env.generateText (.synthesize uq rs as' c) = .error e)
    {β : Type} (f : String → OrchM β) (s : OrchState) :
    bindM (synthesizeAnswer env uq rs as' c) f s =
      (.error e, { s with calls := s.calls ++ [.generate (.synthesize uq rs as' c)] }) := by
  simp [bindM, synthesizeAnswer_spec, h]

theorem decomposeQuery_spec (env : Caps) (uq : String) (s : OrchState) :
    decomposeQuery env uq s =
      ((match env.generateParsed (.decompose uq) with
        | .error e => .error e
        | .ok none => .ok (fallbackDecomposition uq)
        | .ok (some j) => .ok j),
       { s with calls := s.calls ++ [.generate (.decompose uq)] }) := by
  have hlog : logCall (.generate (.decompose uq)) s =
      (.ok (), { s with calls := s.calls ++ [.generate (.decompose uq)] }) := rfl
  rw [decomposeQuery, bindM_ok hlog]
  cases hg : env.generateParsed (.decompose uq) with
  | error e =>
    have hlift : liftExcept (α := Option Json) (.error e)
        { s with calls := s.calls ++ [.generate (.decompose uq)] } =
        (.error e, { s with calls := s.calls ++ [.generate (.decompose uq)] }) := rfl
    rw [bindM_error hlift]
  | ok p =>
    have hlift : liftExcept (α := Option Json) (.ok p)
        { s with calls := s.calls ++ [.generate (.decompose uq)] } =
        (.ok p, { s with calls := s.calls ++ [.generate (.decompose uq)] }) := rfl
    rw [bindM_ok hlift]
    cases p with
    | none => rfl
    | some j => rfl

theorem bindM_ok_inv {α β : Type} {x : OrchM α} {f : α → OrchM β}
    {s s' : OrchState} {b : β} (h : bindM x f s = (.ok b, s')) :
    ∃ a s₁, x s = (.ok a, s₁) ∧ f a s₁ = (.ok b, s') := by
  unfold bindM at h
  cases hx : x s with
  | mk v s₁ =>
    rw [hx] at h
    cases v with
    | ok a => exact ⟨a, s₁, rfl, h⟩
    | error e => simp at h

theorem refineDecomposition_spec (env : Caps) (d : Json)
    (rs : List ResearchResult) (sc : ℚ) (s : OrchState) (rq : Json)
    (hrq : d.index "research_queries" = .ok rq) :
    refineDecomposition env d rs sc s =
      ((match env.generateParsed (.refine rq rs.length sc) with
        | .error e => .error e
        | .ok none => .ok d
        | .ok (some j) => .ok j),
       { s with calls := s.calls ++ [.generate (.refine rq rs.length sc)] }) := by
  rw [refineDecomposition, bindM_liftExcept_ok hrq]
  have hlog : logCall (.generate (.refine rq rs.length sc)) s =
      (.ok (), { s with calls := s.calls ++ [.generate (.refine rq rs.length sc)] }) := rfl
  rw [bindM_ok hlog]
  cases hg : env.generateParsed (.refine rq rs.length sc) with
  | error e =>
    have hlift : liftExcept (α := Option Json) (.error e)
        { s with calls := s.calls ++ [.generate (.refine rq rs.length sc)] } =
        (.error e, { s with calls := s.calls ++ [.generate (.refine rq rs.length sc)] }) := rfl
    rw [bindM_error hlift]
  | ok p =>
    have hlift : liftExcept (α := Option Json) (.ok p)
        { s with calls := s.calls ++ [.generate (.refine rq rs.length sc)] } =
        (.ok p, { s with calls := s.calls ++ [.generate (.refine rq rs.length sc)] }) := rfl
    rw [bindM_ok hlift]
    cases p with
    | none => rfl
    | some j => rfl

theorem loopIter_zero (env : Caps) (th : ℚ) (m iter : Nat) (d : Json)
    (acc : List IterationResult) (s : OrchState) :
    loopIter env th m 0 iter d acc s = (.ok (acc, none, none), s) := rfl

theorem loopIter_pass_spec (env : Caps) (th : ℚ) (m rem iter : Nat) (d rq : Json)
    (queries : List Json) (rs : List ResearchResult) (at' : Json) (ats : List Json)
    (as' : List AnalysisResult) (c : CitationResult)
    (acc : List IterationResult) (s : OrchState)
    (hrq : d.index "research_queries" = .ok rq)
    (hqs : rq.pyIter = .ok queries)
    (hrs : researchPure env queries = .ok rs)
    (hat : d.index "analysis_tasks" = .ok at')
    (hts : at'.pyIter = .ok ats)
    (has : analysisPure env rs ats = .ok as')
    (hcit : env.citation as' rs = .ok c) :
    ∃ s', loopIter env th m (rem + 1) iter d acc s =
        loopTail env th m rem iter d rs as' c acc s' ∧
      s'.currentIteration = iter + 1 ∧
      s'.finalResult = s.finalResult ∧
      s'.calls = s.calls ++ (researchCallTrace env queries ++
        (analysisCallTrace env rs ats ++ [.citation])) := by
  simp only [loopIter]
  have hset : setCurrentIteration (iter + 1) s =
      (.ok (), { s with currentIteration := iter + 1 }) := rfl
  rw [bindM_ok hset, bindM_liftExcept_ok hrq, bindM_liftExcept_ok hqs]
  obtain ⟨T1, hR⟩ := researchLoop_spec env
    (fun i => "research_" ++ toString iter ++ "_" ++ toString i) queries 0
    { s with currentIteration := iter + 1 }
  rw [hrs] at hR
  rw [bindM_ok hR, bindM_liftExcept_ok hat, bindM_liftExcept_ok hts]
  obtain ⟨T2, hA⟩ := analysisLoop_spec env
    (fun i => "analysis_" ++ toString iter ++ "_" ++ toString i) rs ats 0
    { s with currentIteration := iter + 1, tasks := s.tasks ++ T1,
             calls := s.calls ++ researchCallTrace env queries }
  rw [has] at hA
  rw [bindM_ok hA]
  obtain ⟨T3, hC⟩ := runCitation_spec env ("citation_" ++ toString iter) as' rs
    { s with currentIteration := iter + 1, tasks := (s.tasks ++ T1) ++ T2,
             calls := (s.calls ++ researchCallTrace env queries) ++
               analysisCallTrace env rs ats }
  rw [hcit] at hC
  rw [bindM_ok hC]
  refine ⟨_, rfl, rfl, rfl, ?_⟩
  simp [List.append_assoc]

theorem loopTail_converge (env : Caps) (th : ℚ) (m rem iter : Nat) (d : Json)
    (rs : List ResearchResult) (as' : List AnalysisResult) (c : CitationResult)
    (acc : List IterationResult) (s : OrchState)
    (hth : th ≤ evaluateQuality rs as' c) :
    loopTail env th m rem iter d rs as' c acc s =
      (.ok (acc ++ [passRecord iter rs as' c], some true, some (iter + 1)), s) := by
  simp only [loopTail]
  rw [if_pos hth]
  rfl

theorem loopTail_refine (env : Caps) (th : ℚ) (m rem iter : Nat) (d rq : Json)
    (rs : List ResearchResult) (as' : List AnalysisResult) (c : CitationResult)
    (acc : List IterationResult) (s : OrchState) (pr : Option Json)
    (hth : ¬ th ≤ evaluateQuality rs as' c)
    (hlt : iter < m - 1)
    (hrq : d.index "research_queries" = .ok rq)
    (hgen : env.generateParsed (.refine rq rs.length (evaluateQuality rs as' c)) = .ok pr) :
    loopTail env th m rem iter d rs as' c acc s =
      loopIter env th m rem (iter + 1) (match pr with | none => d | some j => j)
        (acc ++ [passRecord iter rs as' c])
        { s with calls := s.calls ++
            [.generate (.refine rq rs.length (evaluateQuality rs as' c))] } := by
  have hspec := refineDecomposition_spec env d rs (evaluateQuality rs as' c) s rq hrq
  rw [hgen] at hspec
  simp only [loopTail]
  rw [if_neg hth, if_pos hlt]
  cases pr with
  | none =>
    have hspec2 : refineDecomposition env d rs (evaluateQuality rs as' c) s =
        (.ok d, { s with calls := s.calls ++
          [.generate (.refine rq rs.length (evaluateQuality rs as' c))] }) := hspec
    rw [bindM_ok hspec2]
    rfl
  | some j =>
    have hspec2 : refineDecomposition env d rs (evaluateQuality rs as' c) s =
        (.ok j, { s with calls := s.calls ++
          [.generate (.refine rq rs.length (evaluateQuality rs as' c))] }) := hspec
    rw [bindM_ok hspec2]
    rfl

theorem loopTail_last (env : Caps) (th : ℚ) (m rem iter : Nat) (d : Json)
    (rs : List ResearchResult) (as' : List AnalysisResult) (c : CitationResult)
    (acc : List IterationResult) (s : OrchState)
    (hth : ¬ th ≤ evaluateQuality rs as' c)
    (hge : ¬ iter < m - 1) :
    loopTail env th m rem iter d rs as' c acc s =
      loopIter env th m rem (iter + 1) d (acc ++ [passRecord iter rs as' c]) s := by
  simp only [loopTail]
  rw [if_neg hth, if_neg hge]
  rfl

theorem executeLoop_ok_inv (env : Caps) (uq : String) (d : Json) (m : Nat)
    (th : ℚ) (s : OrchState) (lr : LoopResult) (s' : OrchState)
    (h : executeLoop env uq d m th s = (.ok lr, s')) :
    ∃ out s₁ best fa,
      loopIter env th m m 0 d [] s = (.ok out, s₁) ∧
      pyMaxBy (fun ir => ir.qualityScore) out.1 = some best ∧
      env.generateText (.synthesize uq best.research best.analysis best.citation) = .ok fa ∧
      lr = mkLoopResult out best fa := by
  rw [executeLoop] at h
  obtain ⟨out, s₁, hli, h⟩ := bindM_ok_inv h
  have h' : (match pyMaxBy (fun ir : IterationResult => ir.qualityScore) out.1 with
      | none => failM (α := LoopResult) (.valueError "max() arg is an empty sequence")
      | some best =>
        bindM (synthesizeAnswer env uq best.research best.analysis best.citation)
          fun finalAnswer => pureM (mkLoopResult out best finalAnswer)) s₁ =
      (.ok lr, s') := h
  cases hmax : pyMaxBy (fun ir : IterationResult => ir.qualityScore) out.1 with
  | none =>
    rw [hmax] at h'
    have h'' : failM (α := LoopResult) (.valueError "max() arg is an empty sequence") s₁ =
        (.ok lr, s') := h'
    simp [failM] at h''
  | some best =>
    rw [hmax] at h'
    have h'' : bindM (synthesizeAnswer env uq best.research best.analysis best.citation)
        (fun finalAnswer => pureM (mkLoopResult out best finalAnswer)) s₁ =
        (.ok lr, s') := h'
    cases hgen : env.generateText (.synthesize uq best.research best.analysis best.citation) with
    | error e =>
      rw [bindM_synth_error hgen] at h''
      simp at h''
    | ok fa =>
      rw [bindM_synth_ok hgen] at h''
      simp only [pureM, Prod.mk.injEq, Except.ok.injEq] at h''
      exact ⟨out, s₁, best, fa, hli, hmax, hgen, h''.1.symm⟩

theorem loopIter_all_below (env : Caps) (th : ℚ) (m : Nat) :
    ∀ (fuel iter : Nat) (d : Json) (acc : List IterationResult) (s : OrchState)
      (out : List IterationResult × Option Bool × Option Nat) (s' : OrchState),
    loopIter env th m fuel iter d acc s = (.ok out, s') →
    (∀ it ∈ out.1, it.qualityScore < th) →
    out.1.length = acc.length + fuel ∧ out.2.1 = none ∧ out.2.2 = none := by
  intro fuel
  induction fuel with
  | zero =>
    intro iter d acc s out s' h hb
    rw [loopIter_zero] at h
    simp only [Prod.mk.injEq, Except.ok.injEq] at h
    rw [← h.1]
    simp
  | succ fuel ih =>
    intro iter d acc s out s' h hb
    simp only [loopIter] at h
    obtain ⟨u1, s1, h1, h⟩ := bindM_ok_inv h
    obtain ⟨rq, s2, h2, h⟩ := bindM_ok_inv h
    obtain ⟨queries, s3, h3, h⟩ := bindM_ok_inv h
    obtain ⟨rs, s4, h4, h⟩ := bindM_ok_inv h
    obtain ⟨at', s5, h5, h⟩ := bindM_ok_inv h
    obtain ⟨ats, s6, h6, h⟩ := bindM_ok_inv h
    obtain ⟨as', s7, h7, h⟩ := bindM_ok_inv h
    obtain ⟨c, s8, h8, h⟩ := bindM_ok_inv h
    have h' : (if th ≤ evaluateQuality rs as' c then
        pureM (α := List IterationResult × Option Bool × Option Nat)
          (acc ++ [passRecord iter rs as' c], some true, some (iter + 1))
      else if iter < m - 1 then
        bindM (refineDecomposition env d rs (evaluateQuality rs as' c)) fun d2 =>
          loopIter env th m fuel (iter + 1) d2 (acc ++ [passRecord iter rs as' c])
      else
        loopIter env th m fuel (iter + 1) d (acc ++ [passRecord iter rs as' c])) s8 =
      (.ok out, s') := h
    by_cases hth : th ≤ evaluateQuality rs as' c
    · rw [if_pos hth] at h'
      simp only [pureM, Prod.mk.injEq, Except.ok.injEq] at h'
      exfalso
      have hmem : passRecord iter rs as' c ∈ out.1 := by
        rw [← h'.1]
        simp
      have hlt' : evaluateQuality rs as' c < th := hb _ hmem
      exact absurd hth (not_le_of_lt hlt')
    · rw [if_neg hth] at h'
      by_cases hlt : iter < m - 1
      · rw [if_pos hlt] at h'
        obtain ⟨d2, s9, h9, h''⟩ := bindM_ok_inv h'
        have hrec := ih (iter + 1) d2 (acc ++ [passRecord iter rs as' c]) s9 out s' h'' hb
        refine ⟨?_, hrec.2.1, hrec.2.2⟩
        rw [hrec.1]
        simp
        omega
      · rw [if_neg hlt] at h'
        have hrec := ih (iter + 1) d (acc ++ [passRecord iter rs as' c]) s8 out s' h' hb
        refine ⟨?_, hrec.2.1, hrec.2.2⟩
        rw [hrec.1]
        simp
        omega

theorem executeSequential_spec (env : Caps) (uq : String) (d : Json) (s : OrchState) :
    ∃ tasks', executeSequential env uq d s =
      ((pipelineCore env uq d).map (mkPipelineResult "sequential"),
       { s with tasks := tasks', calls := s.calls ++ pipelineCallTrace env uq d }) := by
  rw [executeSequential]
  cases hrq : d.index "research_queries" with
  | error e =>
    rw [bindM_liftExcept_error rfl]
    refine ⟨s.tasks, ?_⟩
    simp [pipelineCore, pipelineCallTrace, Except.map, hrq]
  | ok rq =>
  rw [bindM_liftExcept_ok rfl]
  cases hit : rq.pyIter with
  | error e =>
    rw [bindM_liftExcept_error rfl]
    refine ⟨s.tasks, ?_⟩
    simp [pipelineCore, pipelineCallTrace, Except.map, hrq, hit]
  | ok queries =>
  rw [bindM_liftExcept_ok rfl]
  obtain ⟨T1, heqR⟩ :=
    researchLoop_spec env (fun i => "research_" ++ toString i) queries 0 s
  cases hrs : researchPure env queries with
  | error e =>
    rw [hrs] at heqR
    rw [bindM_error heqR]
    refine ⟨s.tasks ++ T1, ?_⟩
    simp [pipelineCore, pipelineCallTrace, Except.map, hrq, hit, hrs]
  | ok rs =>
  rw [hrs] at heqR
  rw [bindM_ok heqR]
  cases hat : d.index "analysis_tasks" with
  | error e =>
    rw [bindM_liftExcept_error rfl]
    refine ⟨s.tasks ++ T1, ?_⟩
    simp [pipelineCore, pipelineCallTrace, Except.map, hrq, hit, hrs, hat]
  | ok at' =>
  rw [bindM_liftExcept_ok rfl]
  cases hit2 : at'.pyIter with
  | error e =>
    rw [bindM_liftExcept_error rfl]
    refine ⟨s.tasks ++ T1, ?_⟩
    simp [pipelineCore, pipelineCallTrace, Except.map, hrq, hit, hrs, hat, hit2]
  | ok atasks =>
  rw [bindM_liftExcept_ok rfl]
  obtain ⟨T2, heqA⟩ :=
    analysisLoop_spec env (fun i => "analysis_" ++ toString i) rs atasks 0
      { s with tasks := s.tasks ++ T1, calls := s.calls ++ researchCallTrace env queries }
  cases has : analysisPure env rs atasks with
  | error e =>
    rw [has] at heqA
    rw [bindM_error heqA]
    refine ⟨(s.tasks ++ T1) ++ T2, ?_⟩
    simp [pipelineCore, pipelineCallTrace, Except.map, hrq, hit, hrs, hat, hit2, has,
      List.append_assoc]
  | ok as' =>
  rw [has] at heqA
  rw [bindM_ok heqA]
  obtain ⟨T3, heqC⟩ :=
    runCitation_spec env "citation_validation" as' rs
      { s with tasks := (s.tasks ++ T1) ++ T2,
               calls := (s.calls ++ researchCallTrace env queries) ++
                 analysisCallTrace env rs atasks }
  cases hcit : env.citation as' rs with
  | error e =>
    rw [hcit] at heqC
    rw [bindM_error heqC]
    refine ⟨((s.tasks ++ T1) ++ T2) ++ T3, ?_⟩
    simp [pipelineCore, pipelineCallTrace, Except.map, hrq, hit, hrs, hat, hit2, has, hcit,
      List.append_assoc]
  | ok c =>
  rw [hcit] at heqC
  rw [bindM_ok heqC]
  cases hgen : env.generateText (.synthesize uq rs as' c) with
  | error e =>
    rw [bindM_synth_error hgen]
    refine ⟨((s.tasks ++ T1) ++ T2) ++ T3, ?_⟩
    simp [pipelineCore, pipelineCallTrace, Except.map, hrq, hit, hrs, hat, hit2, has, hcit, hgen,
      List.append_assoc]
  | ok fa =>
  rw [bindM_synth_ok hgen]
  refine ⟨((s.tasks ++ T1) ++ T2) ++ T3, ?_⟩
  simp [pureM, pipelineCore, pipelineCallTrace, mkPipelineResult, Except.map,
    hrq, hit, hrs, hat, hit2, has, hcit, hgen, List.append_assoc]

theorem executeParallel_spec (env : Caps) (uq : String) (d : Json) (s : OrchState) :
    ∃ tasks', executeParallel env uq d s =
      ((pipelineCore env uq d).map (mkPipelineResult "parallel"),
       { s with tasks := tasks', calls := s.calls ++ pipelineCallTrace env uq d }) := by
  rw [executeParallel]
  cases hrq : d.index "research_queries" with
  | error e =>
    rw [bindM_liftExcept_error rfl]
    refine ⟨s.tasks, ?_⟩
    simp [pipelineCore, pipelineCallTrace, Except.map, hrq]
  | ok rq =>
  rw [bindM_liftExcept_ok rfl]
  cases hit : rq.pyIter with
  | error e =>
    rw [bindM_liftExcept_error rfl]
    refine ⟨s.tasks, ?_⟩
    simp [pipelineCore, pipelineCallTrace, Except.map, hrq, hit]
  | ok queries =>
  rw [bindM_liftExcept_ok rfl]
  obtain ⟨T1, heqT⟩ := appendResearchTasks_spec queries 0 s
  rw [bindM_ok heqT]
  have heqG := gatherResearch_spec env queries { s with tasks := s.tasks ++ T1 }
  cases hrs : researchPure env queries with
  | error e =>
    rw [hrs] at heqG
    rw [bindM_error heqG]
    refine ⟨s.tasks ++ T1, ?_⟩
    simp [pipelineCore, pipelineCallTrace, Except.map, hrq, hit, hrs]
  | ok rs =>
  rw [hrs] at heqG
  rw [bindM_ok heqG]
  obtain ⟨tasks2, heqM⟩ := markResearchCompleted_spec rs
    { s with tasks := s.tasks ++ T1, calls := s.calls ++ researchCallTrace env queries }
  rw [bindM_ok heqM]
  cases hat : d.index "analysis_tasks" with
  | error e =>
    rw [bindM_liftExcept_error rfl]
    refine ⟨tasks2, ?_⟩
    simp [pipelineCore, pipelineCallTrace, Except.map, hrq, hit, hrs, hat]
  | ok at' =>
  rw [bindM_liftExcept_ok rfl]
  cases hit2 : at'.pyIter with
  | error e =>
    rw [bindM_liftExcept_error rfl]
    refine ⟨tasks2, ?_⟩
    simp [pipelineCore, pipelineCallTrace, Except.map, hrq, hit, hrs, hat, hit2]
  | ok atasks =>
  rw [bindM_liftExcept_ok rfl]
  obtain ⟨T2, heqA⟩ :=
    analysisLoop_spec env (fun i => "analysis_" ++ toString i) rs atasks 0
      { s with tasks := tasks2,
               calls := s.calls ++ researchCallTrace env queries }
  cases has : analysisPure env rs atasks with
  | error e =>
    rw [has] at heqA
    rw [bindM_error heqA]
    refine ⟨tasks2 ++ T2, ?_⟩
    simp [pipelineCore, pipelineCallTrace, Except.map, hrq, hit, hrs, hat, hit2, has,
      List.append_assoc]
  | ok as' =>
  rw [has] at heqA
  rw [bindM_ok heqA]
  obtain ⟨T3, heqC⟩ :=
    runCitation_spec env "citation_validation" as' rs
      { s with tasks := tasks2 ++ T2,
               calls := (s.calls ++ researchCallTrace env queries) ++
                 analysisCallTrace env rs atasks }
  cases hcit : env.citation as' rs with
  | error e =>
    rw [hcit] at heqC
    rw [bindM_error heqC]
    refine ⟨(tasks2 ++ T2) ++ T3, ?_⟩
    simp [pipelineCore, pipelineCallTrace, Except.map, hrq, hit, hrs, hat, hit2, has, hcit,
      List.append_assoc]
  | ok c =>
  rw [hcit] at heqC
  rw [bindM_ok heqC]
  cases hgen : env.generateText (.synthesize uq rs as' c) with
  | error e =>
    rw [bindM_synth_error hgen]
    refine ⟨(tasks2 ++ T2) ++ T3, ?_⟩
    simp [pipelineCore, pipelineCallTrace, Except.map, hrq, hit, hrs, hat, hit2, has, hcit, hgen,
      List.append_assoc]
  | ok fa =>
  rw [bindM_synth_ok hgen]
  refine ⟨(tasks2 ++ T2) ++ T3, ?_⟩
  simp [pureM, pipelineCore, pipelineCallTrace, mkPipelineResult, Except.map,
    hrq, hit, hrs, hat, hit2, has, hcit, hgen, List.append_assoc]

theorem executeLoop_build (env : Caps) (uq : String) (d : Json) (m : Nat) (th : ℚ)
    (s : OrchState) (out : List IterationResult × Option Bool × Option Nat)
    (s₁ : OrchState) (best : IterationResult) (fa : String)
    (hli : loopIter env th m m 0 d [] s = (.ok out, s₁))
    (hmax : pyMaxBy (fun ir : IterationResult => ir.qualityScore) out.1 = some best)
    (hgen : env.generateText (.synthesize uq best.research best.analysis best.citation) =
      .ok fa) :
    executeLoop env uq d m th s =
      (.ok (mkLoopResult out best fa),
       { s₁ with calls := s₁.calls ++
         [.generate (.synthesize uq best.research best.analysis best.citation)] }) := by
  rw [executeLoop, bindM_ok hli]
  rw [hmax]
  show (bindM (synthesizeAnswer env uq best.research best.analysis best.citation)
    fun finalAnswer => pureM (mkLoopResult out best finalAnswer)) s₁ = _
  rw [bindM_synth_ok hgen]
  rfl

theorem researchPure_ok (env : Caps) :
    ∀ qs : List Json, (∀ q ∈ qs, ∃ r, env.research q = .ok r) →
    ∃ rs, researchPure env qs = .ok rs := by
  intro qs
  induction qs with
  | nil => intro h; exact ⟨[], rfl⟩
  | cons q qs ih =>
    intro h
    obtain ⟨r, hr⟩ := h q (by simp)
    obtain ⟨rs, hrs⟩ := ih (fun q' hq' => h q' (by simp [hq']))
    refine ⟨r :: rs, ?_⟩
    rw [researchPure, hr, hrs]

theorem loopC1_run :
    ∃ s', loopIter envC1 (17 / 20) 3 3 0 d1 [] initState =
      (.ok ([passRecord 0 [rC1a] [aC1a] cC1a, passRecord 1 [rC1b] [aC1b] cC1b],
        some true, some 2), s') ∧
      s'.currentIteration = 2 ∧ countResearchCalls s'.calls = 2 := by
  have hsc1 : evaluateQuality [rC1a] [aC1a] cC1a = 1 / 2 := by with_unfolding_all rfl
  have hsc2 : evaluateQuality [rC1b] [aC1b] cC1b = 9 / 10 := by with_unfolding_all rfl
  obtain ⟨s1, hp1, hc1, hf1, hl1⟩ := loopIter_pass_spec envC1 (17 / 20) 3 2 0 d1
    (.arr [.str "q1"]) [.str "q1"] [rC1a] (.arr [.str "t"]) [.str "t"] [aC1a] cC1a
    [] initState rfl rfl rfl rfl rfl rfl rfl
  have hp1' : loopIter envC1 (17 / 20) 3 3 0 d1 [] initState =
      loopTail envC1 (17 / 20) 3 2 0 d1 [rC1a] [aC1a] cC1a [] s1 := hp1
  have hth1 : ¬ (17 / 20 : ℚ) ≤ evaluateQuality [rC1a] [aC1a] cC1a := by
    rw [hsc1]
    with_unfolding_all decide
  have ht1 := loopTail_refine envC1 (17 / 20) 3 2 0 d1 (.arr [.str "q1"])
    [rC1a] [aC1a] cC1a [] s1 (some d2) hth1 (by decide) rfl rfl
  have ht1' : loopTail envC1 (17 / 20) 3 2 0 d1 [rC1a] [aC1a] cC1a [] s1 =
      loopIter envC1 (17 / 20) 3 2 1 d2 [passRecord 0 [rC1a] [aC1a] cC1a]
        { s1 with calls := s1.calls ++ [.generate (.refine (.arr [.str "q1"])
          ([rC1a].length) (evaluateQuality [rC1a] [aC1a] cC1a))] } := ht1
  obtain ⟨s2, hp2, hc2, hf2, hl2⟩ := loopIter_pass_spec envC1 (17 / 20) 3 1 1 d2
    (.arr [.str "q2"]) [.str "q2"] [rC1b] (.arr [.str "t"]) [.str "t"] [aC1b] cC1b
    [passRecord 0 [rC1a] [aC1a] cC1a]
    { s1 with calls := s1.calls ++ [.generate (.refine (.arr [.str "q1"])
        ([rC1a].length) (evaluateQuality [rC1a] [aC1a] cC1a))] }
    rfl rfl rfl rfl rfl rfl rfl
  have hp2' : loopIter envC1 (17 / 20) 3 2 1 d2 [passRecord 0 [rC1a] [aC1a] cC1a]
      { s1 with calls := s1.calls ++ [.generate (.refine (.arr [.str "q1"])
        ([rC1a].length) (evaluateQuality [rC1a] [aC1a] cC1a))] } =
      loopTail envC1 (17 / 20) 3 1 1 d2 [rC1b] [aC1b] cC1b
        [passRecord 0 [rC1a] [aC1a] cC1a] s2 := hp2
  have hth2 : (17 / 20 : ℚ) ≤ evaluateQuality [rC1b] [aC1b] cC1b := by
    rw [hsc2]
    with_unfolding_all decide
  have ht2 := loopTail_converge envC1 (17 / 20) 3 1 1 d2 [rC1b] [aC1b] cC1b
    [passRecord 0 [rC1a] [aC1a] cC1a] s2 hth2
  refine ⟨s2, ?_, ?_, ?_⟩
  · rw [hp1', ht1', hp2', ht2]
    rfl
  · rw [hc2]
  · have htr1 : researchCallTrace envC1 [.str "q1"] = [.research (.str "q1")] := rfl
    have htr2 : researchCallTrace envC1 [.str "q2"] = [.research (.str "q2")] := rfl
    have hta1 : analysisCallTrace envC1 [rC1a] [.str "t"] = [.analysis (.str "t")] := rfl
    have hta2 : analysisCallTrace envC1 [rC1b] [.str "t"] = [.analysis (.str "t")] := rfl
    rw [hl2]
    simp only [OrchState.calls]
    rw [hl1]
    simp [countResearchCalls, initState, htr1, htr2, hta1, hta2, List.filter_append]

/-- Scores 0.2, 0.3, 0.4 never reach the 0.85 threshold: all three
iterations run and the convergence keys stay unset. -/
theorem loopC2_run :
    ∃ s', loopIter envC2 (17 / 20) 3 3 0 e1 [] initState =
      (.ok ([passRecord 0 [rC2a] [aC2] cC2a, passRecord 1 [rC2b] [aC2] cC2b,
        passRecord 2 [rC2c] [aC2] cC2c], none, none), s') ∧
      s'.currentIteration = 3 ∧ countResearchCalls s'.calls = 3 := by
  have hsc1 : evaluateQuality [rC2a] [aC2] cC2a = 1 / 5 := by with_unfolding_all rfl
  have hsc2 : evaluateQuality [rC2b] [aC2] cC2b = 3 / 10 := by with_unfolding_all rfl
  have hsc3 : evaluateQuality [rC2c] [aC2] cC2c = 2 / 5 := by with_unfolding_all rfl
  obtain ⟨s1, hp1, hc1, hf1, hl1⟩ := loopIter_pass_spec envC2 (17 / 20) 3 2 0 e1
    (.arr [.str "q1"]) [.str "q1"] [rC2a] (.arr [.str "t"]) [.str "t"] [aC2] cC2a
    [] initState rfl rfl rfl rfl rfl rfl rfl
  have hp1' : loopIter envC2 (17 / 20) 3 3 0 e1 [] initState =
      loopTail envC2 (17 / 20) 3 2 0 e1 [rC2a] [aC2] cC2a [] s1 := hp1
  have hth1 : ¬ (17 / 20 : ℚ) ≤ evaluateQuality [rC2a] [aC2] cC2a := by
    rw [hsc1]
    with_unfolding_all decide
  have ht1 := loopTail_refine envC2 (17 / 20) 3 2 0 e1 (.arr [.str "q1"])
    [rC2a] [aC2] cC2a [] s1 (some e2) hth1 (by decide) rfl rfl
  have ht1' : loopTail envC2 (17 / 20) 3 2 0 e1 [rC2a] [aC2] cC2a [] s1 =
      loopIter envC2 (17 / 20) 3 2 1 e2 [passRecord 0 [rC2a] [aC2] cC2a]
        { s1 with calls := s1.calls ++ [.generate (.refine (.arr [.str "q1"])
          ([rC2a].length) (evaluateQuality [rC2a] [aC2] cC2a))] } := ht1
  obtain ⟨s2, hp2, hc2, hf2, hl2⟩ := loopIter_pass_spec envC2 (17 / 20) 3 1 1 e2
    (.arr [.str "q2"]) [.str "q2"] [rC2b] (.arr [.str "t"]) [.str "t"] [aC2] cC2b
    [passRecord 0 [rC2a] [aC2] cC2a]
    { s1 with calls := s1.calls ++ [.generate (.refine (.arr [.str "q1"])
        ([rC2a].length) (evaluateQuality [rC2a] [aC2] cC2a))] }
    rfl rfl rfl rfl rfl rfl rfl
  have hp2' : loopIter envC2 (17 / 20) 3 2 1 e2 [passRecord 0 [rC2a] [aC2] cC2a]
      { s1 with calls := s1.calls ++ [.generate (.refine (.arr [.str "q1"])
        ([rC2a].length) (evaluateQuality [rC2a] [aC2] cC2a))] } =
      loopTail envC2 (17 / 20) 3 1 1 e2 [rC2b] [aC2] cC2b
        [passRecord 0 [rC2a] [aC2] cC2a] s2 := hp2
  have hth2 : ¬ (17 / 20 : ℚ) ≤ evaluateQuality [rC2b] [aC2] cC2b := by
    rw [hsc2]
    with_unfolding_all decide
  have ht2 := loopTail_refine envC2 (17 / 20) 3 1 1 e2 (.arr [.str "q2"])
    [rC2b] [aC2] cC2b [passRecord 0 [rC2a] [aC2] cC2a] s2 (some e3) hth2
    (by decide) rfl rfl
  have ht2' : loopTail envC2 (17 / 20) 3 1 1 e2 [rC2b] [aC2] cC2b
      [passRecord 0 [rC2a] [aC2] cC2a] s2 =
      loopIter envC2 (17 / 20) 3 1 2 e3
        [passRecord 0 [rC2a] [aC2] cC2a, passRecord 1 [rC2b] [aC2] cC2b]
        { s2 with calls := s2.calls ++ [.generate (.refine (.arr [.str "q2"])
          ([rC2b].length) (evaluateQuality [rC2b] [aC2] cC2b))] } := ht2
  obtain ⟨s3, hp3, hc3, hf3, hl3⟩ := loopIter_pass_spec envC2 (17 / 20) 3 0 2 e3
    (.arr [.str "q3"]) [.str "q3"] [rC2c] (.arr [.str "t"]) [.str "t"] [aC2] cC2c
    [passRecord 0 [rC2a] [aC2] cC2a, passRecord 1 [rC2b] [aC2] cC2b]
    { s2 with calls := s2.calls ++ [.generate (.refine (.arr [.str "q2"])
        ([rC2b].length) (evaluateQuality [rC2b] [aC2] cC2b))] }
    rfl rfl rfl rfl rfl rfl rfl
  have hp3' : loopIter envC2 (17 / 20) 3 1 2 e3
      [passRecord 0 [rC2a] [aC2] cC2a, passRecord 1 [rC2b] [aC2] cC2b]
      { s2 with calls := s2.calls ++ [.generate (.refine (.arr [.str "q2"])
        ([rC2b].length) (evaluateQuality [rC2b] [aC2] cC2b))] } =
      loopTail envC2 (17 / 20) 3 0 2 e3 [rC2c] [aC2] cC2c
        [passRecord 0 [rC2a] [aC2] cC2a, passRecord 1 [rC2b] [aC2] cC2b] s3 := hp3
  have hth3 : ¬ (17 / 20 : ℚ) ≤ evaluateQuality [rC2c] [aC2] cC2c := by
    rw [hsc3]
    with_unfolding_all decide
  have ht3 := loopTail_last envC2 (17 / 20) 3 0 2 e3 [rC2c] [aC2] cC2c
    [passRecord 0 [rC2a] [aC2] cC2a, passRecord 1 [rC2b] [aC2] cC2b] s3 hth3
    (by decide)
  refine ⟨s3, ?_, ?_, ?_⟩
  · rw [hp1', ht1', hp2', ht2', hp3', ht3, loopIter_zero]
    rfl
  · rw [hc3]
  · have htr1 : researchCallTrace envC2 [.str "q1"] = [.research (.str "q1")] := rfl
    have htr2 : researchCallTrace envC2 [.str "q2"] = [.research (.str "q2")] := rfl
    have htr3 : researchCallTrace envC2 [.str "q3"] = [.research (.str "q3")] := rfl
    have hta1 : analysisCallTrace envC2 [rC2a] [.str "t"] = [.analysis (.str "t")] := rfl
    have hta2 : analysisCallTrace envC2 [rC2b] [.str "t"] = [.analysis (.str "t")] := rfl
    have hta3 : analysisCallTrace envC2 [rC2c] [.str "t"] = [.analysis (.str "t")] := rfl
    rw [hl3]
    simp only [OrchState.calls]
    rw [hl2]
    simp only [OrchState.calls]
    rw [hl1]
    simp [countResearchCalls, initState, htr1, htr2, htr3, hta1, hta2, hta3,
      List.filter_append]

/-- Full run of the loop strategy on the convergence scenario. -/
theorem executeLoopC1_run :
    ∃ s', executeLoop envC1 "uq" d1 3 (17 / 20) initState = (.ok loopResultC1, s') ∧
      s'.currentIteration = 2 ∧ countResearchCalls s'.calls = 2 := by
  obtain ⟨s2, hrun, hcur, hcount⟩ := loopC1_run
  have hmaxlt : (passRecord 0 [rC1a] [aC1a] cC1a).qualityScore <
      (passRecord 1 [rC1b] [aC1b] cC1b).qualityScore := by
    with_unfolding_all decide
  have hmax : pyMaxBy (fun ir : IterationResult => ir.qualityScore)
      [passRecord 0 [rC1a] [aC1a] cC1a, passRecord 1 [rC1b] [aC1b] cC1b] =
      some (passRecord 1 [rC1b] [aC1b] cC1b) := by
    simp only [pyMaxBy, List.foldl]
    rw [if_pos hmaxlt]
  have hgen : envC1.generateText (.synthesize "uq"
      (passRecord 1 [rC1b] [aC1b] cC1b).research
      (passRecord 1 [rC1b] [aC1b] cC1b).analysis
      (passRecord 1 [rC1b] [aC1b] cC1b).citation) = .ok "synth-a2" := rfl
  have hb := executeLoop_build envC1 "uq" d1 3 (17 / 20) initState
    ([passRecord 0 [rC1a] [aC1a] cC1a, passRecord 1 [rC1b] [aC1b] cC1b],
      some true, some 2) s2 (passRecord 1 [rC1b] [aC1b] cC1b) "synth-a2"
    hrun hmax hgen
  have hlr : mkLoopResult
      ([passRecord 0 [rC1a] [aC1a] cC1a, passRecord 1 [rC1b] [aC1b] cC1b],
        some true, some 2) (passRecord 1 [rC1b] [aC1b] cC1b) "synth-a2" =
      loopResultC1 := by
    simp [mkLoopResult, loopResultC1, passRecord,
      show evaluateQuality [rC1a] [aC1a] cC1a = 1 / 2 from by with_unfolding_all rfl,
      show evaluateQuality [rC1b] [aC1b] cC1b = 9 / 10 from by with_unfolding_all rfl]
  rw [hlr] at hb
  refine ⟨_, hb, ?_, ?_⟩
  · simpa using hcur
  · simpa [countResearchCalls, List.filter_append] using hcount

/-- Full run of the loop strategy on the never-converging scenario. -/
theorem executeLoopC2_run :
    ∃ s', executeLoop envC2 "uq" e1 3 (17 / 20) initState = (.ok loopResultC2, s') ∧
      s'.currentIteration = 3 ∧ countResearchCalls s'.calls = 3 := by
  obtain ⟨s3, hrun, hcur, hcount⟩ := loopC2_run
  have h01 : (passRecord 0 [rC2a] [aC2] cC2a).qualityScore <
      (passRecord 1 [rC2b] [aC2] cC2b).qualityScore := by
    with_unfolding_all decide
  have h12 : (passRecord 1 [rC2b] [aC2] cC2b).qualityScore <
      (passRecord 2 [rC2c] [aC2] cC2c).qualityScore := by
    with_unfolding_all decide
  have hmax : pyMaxBy (fun ir : IterationResult => ir.qualityScore)
      [passRecord 0 [rC2a] [aC2] cC2a, passRecord 1 [rC2b] [aC2] cC2b,
        passRecord 2 [rC2c] [aC2] cC2c] =
      some (passRecord 2 [rC2c] [aC2] cC2c) := by
    simp only [pyMaxBy, List.foldl]
    rw [if_pos h01, if_pos h12]
  have hgen : envC2.generateText (.synthesize "uq"
      (passRecord 2 [rC2c] [aC2] cC2c).research
      (passRecord 2 [rC2c] [aC2] cC2c).analysis
      (passRecord 2 [rC2c] [aC2] cC2c).citation) = .ok "synth-a3" := rfl
  have hb := executeLoop_build envC2 "uq" e1 3 (17 / 20) initState
    ([passRecord 0 [rC2a] [aC2] cC2a, passRecord 1 [rC2b] [aC2] cC2b,
      passRecord 2 [rC2c] [aC2] cC2c], none, none) s3
    (passRecord 2 [rC2c] [aC2] cC2c) "synth-a3" hrun hmax hgen
  have hlr : mkLoopResult
      ([passRecord 0 [rC2a] [aC2] cC2a, passRecord 1 [rC2b] [aC2] cC2b,
        passRecord 2 [rC2c] [aC2] cC2c], none, none)
      (passRecord 2 [rC2c] [aC2] cC2c) "synth-a3" = loopResultC2 := by
    simp [mkLoopResult, loopResultC2, passRecord,
      show evaluateQuality [rC2a] [aC2] cC2a = 1 / 5 from by with_unfolding_all rfl,
      show evaluateQuality [rC2b] [aC2] cC2b = 3 / 10 from by with_unfolding_all rfl,
      show evaluateQuality [rC2c] [aC2] cC2c = 2 / 5 from by with_unfolding_all rfl]
  rw [hlr] at hb
  refine ⟨_, hb, ?_, ?_⟩
  · simpa using hcur
  · simpa [countResearchCalls, List.filter_append] using hcount

/-! Claim theorems. -/

theorem quality_weighted_bounds {S A C : ℚ} (hS0 : 0 ≤ S) (hS1 : S ≤ 1)
    (hA0 : 0 ≤ A) (hA1 : A ≤ 1) (hC0 : 0 ≤ C) (hC1 : C ≤ 1) :
    0 ≤ S * (3 / 10) + A * (1 / 2) + C * (1 / 5) ∧
    S * (3 / 10) + A * (1 / 2) + C * (1 / 5) ≤ 1 := by
  constructor <;> nlinarith

/-- Claim C7 (counterexample): the quality scorer does not clamp the
citation term, so a citation accuracy of 3 drives the score to 1.5,
outside [0,1] — the claim that every input yields a score in [0,1] with
each term clamped is false. -/
theorem quality_score_unclamped_counterexample :
    evaluateQuality [] [] { accuracy := some 3, payload := "" } = 3 / 2 ∧
    ¬ evaluateQuality [] [] { accuracy := some 3, payload := "" } ≤ 1 := by
  constructor
  · with_unfolding_all decide
  · with_unfolding_all decide

/-- Claim C7 (amended): the source term and the completeness term are
bounded in [0,1] by construction, but the citation term is used unclamped
(defaulting to 0 when absent); whenever the citation accuracy lies in
[0,1], the weighted score (weights 0.30, 0.50, 0.20, summing to 1) lies
in [0,1]. -/
theorem quality_score_range (rs : List ResearchResult) (as' : List AnalysisResult)
    (c : CitationResult) (h0 : 0 ≤ c.accuracy.getD 0) (h1 : c.accuracy.getD 0 ≤ 1) :
    0 ≤ evaluateQuality rs as' c ∧ evaluateQuality rs as' c ≤ 1 := by
  simp only [evaluateQuality]
  refine quality_weighted_bounds ?_ ?_ h0 h1 ?_ ?_
  · exact le_min (by positivity) zero_le_one
  · exact min_le_right _ _
  · positivity
  · apply div_le_one_of_le₀
    · exact_mod_cast le_trans (List.length_filter_le _ _) (le_max_left _ _)
    · positivity

/-- Witness for the amended C7 at a concrete input. -/
theorem quality_score_range_witness :
    0 ≤ evaluateQuality [] [] { accuracy := some (1 / 2), payload := "" } ∧
    evaluateQuality [] [] { accuracy := some (1 / 2), payload := "" } ≤ 1 :=
  quality_score_range [] [] { accuracy := some (1 / 2), payload := "" }
    (by norm_num) (by norm_num)

/-- Claim C8: when the decomposition reply is unparsable, `_decompose_query`
returns the fallback decomposition with one research query equal to the
user query, one generic analysis task, one generic citation requirement and
complexity "simple" — at least one item in each of the three lists. -/
theorem decompose_fallback_shape (env : Caps) (uq : String) (s : OrchState)
    (h : env.generateParsed (.decompose uq) = .ok none) :
    decomposeQuery env uq s =
      (.ok (fallbackDecomposition uq),
       { s with calls := s.calls ++ [.generate (.decompose uq)] }) ∧
    (fallbackDecomposition uq).index "research_queries" = .ok (.arr [.str uq]) ∧
    (fallbackDecomposition uq).index "analysis_tasks" =
      .ok (.arr [.str "Analyze retrieved information"]) ∧
    (fallbackDecomposition uq).index "citation_requirements" =
      .ok (.arr [.str "Validate all claims"]) ∧
    (fallbackDecomposition uq).index "complexity" = .ok (.str "simple") := by
  refine ⟨?_, rfl, rfl, rfl, rfl⟩
  rw [decomposeQuery_spec, h]

/-- Witness for C8 at a concrete environment. -/
theorem decompose_fallback_witness :
    decomposeQuery envS "hello" initState =
      (.ok (fallbackDecomposition "hello"),
       { initState with calls := [.generate (.decompose "hello")] }) :=
  (decompose_fallback_shape envS "hello" initState rfl).1

/-- Claim C9: when the refinement reply is unparsable, the refinement
returns exactly the decomposition it was given — the identity on its
previous-decomposition argument. -/
theorem refine_malformed_identity (env : Caps) (d : Json)
    (rs : List ResearchResult) (sc : ℚ) (s : OrchState) (rq : Json)
    (hkey : d.index "research_queries" = .ok rq)
    (h : env.generateParsed (.refine rq rs.length sc) = .ok none) :
    refineDecomposition env d rs sc s =
      (.ok d, { s with calls := s.calls ++ [.generate (.refine rq rs.length sc)] }) := by
  rw [refineDecomposition, bindM_liftExcept_ok hkey]
  have hlog : logCall (.generate (.refine rq rs.length sc)) s =
      (.ok (), { s with calls := s.calls ++ [.generate (.refine rq rs.length sc)] }) := rfl
  rw [bindM_ok hlog]
  have hlift : liftExcept (α := Option Json) (env.generateParsed (.refine rq rs.length sc))
      { s with calls := s.calls ++ [.generate (.refine rq rs.length sc)] } =
      (.ok none, { s with calls := s.calls ++ [.generate (.refine rq rs.length sc)] }) := by
    simp [liftExcept, h]
  rw [bindM_ok hlift]
  rfl

/-- Witness for C9 at a concrete decomposition. -/
theorem refine_malformed_identity_witness :
    refineDecomposition envS d1 [] (1 / 2) initState =
      (.ok d1,
       { initState with calls := [.generate (.refine (.arr [.str "q1"]) 0 (1 / 2))] }) :=
  refine_malformed_identity envS d1 [] (1 / 2) initState (.arr [.str "q1"]) rfl rfl

/-- Claim C5 (counterexample): a throwing research capability leaves its
task with status "in_progress" — the task is never marked "failed" as the
claim states, though the error is re-raised. -/
theorem executor_failed_status_counterexample :
    (executeSequential envFail "uq" e1 initState).1 = .error (.capability "boom") ∧
    (executeSequential envFail "uq" e1 initState).2.tasks.map (fun t => t.status) =
      ["in_progress"] ∧
    ("in_progress" : String) ≠ "failed" := by
  refine ⟨rfl, rfl, by decide⟩

/-- Claim C5 (amended): the executor marks the dispatched task
`in_progress` and invokes the capability; a thrown capability error is
re-raised to the caller un-swallowed, but the failing task remains in the
`in_progress` state (it is never marked "failed"); on success the task is
marked completed with its result stored. -/
theorem executor_error_leaves_in_progress {β : Type} (call : CallKind)
    (tid aty : String) (q : Json) (ctx : TaskContext) (cap : Except Err β)
    (wrap : β → TaskResult) (s : OrchState) :
    (∀ e, cap = .error e →
      runTaskCall call tid aty q ctx cap wrap s =
        (.error e, { s with tasks := s.tasks ++ [inProgressTask tid aty q ctx],
                            calls := s.calls ++ [call] }) ∧
      (inProgressTask tid aty q ctx).status = "in_progress" ∧
      (inProgressTask tid aty q ctx).status ≠ "failed") ∧
    (∀ b, cap = .ok b →
      runTaskCall call tid aty q ctx cap wrap s =
        (.ok b, { s with tasks := s.tasks ++ [completedTask tid aty q ctx (wrap b)],
                         calls := s.calls ++ [call] })) := by
  constructor
  · intro e he
    subst he
    exact ⟨runTaskCall_error call tid aty q ctx e wrap s, rfl, by simp [inProgressTask]⟩
  · intro b hb
    subst hb
    exact runTaskCall_ok call tid aty q ctx b wrap s

/-- Witness for the amended C5 at a concrete throwing capability. -/
theorem executor_error_witness :
    (runTaskCall (β := ResearchResult) (.research (.str "q")) "research_0" "research"
        (.str "q") .empty (.error (.capability "boom")) TaskResult.research initState =
      (.error (.capability "boom"),
       { initState with tasks := [inProgressTask "research_0" "research" (.str "q") .empty],
                        calls := [.research (.str "q")] }) ∧
      (inProgressTask "research_0" "research" (.str "q") .empty).status = "in_progress" ∧
      (inProgressTask "research_0" "research" (.str "q") .empty).status ≠ "failed") :=
  (executor_error_leaves_in_progress (.research (.str "q")) "research_0" "research"
    (.str "q") .empty (.error (.capability "boom")) TaskResult.research initState).1
    (.capability "boom") rfl

/-- Claim C4 (counterexample): requesting the unknown pattern "bogus"
raises the InvalidPattern ValueError, but only after the query
decomposition text-generation call was already made (the call log is
non-empty), contradicting "no capability or text-generation call
(including query decomposition) is made before the error is raised". -/
theorem invalid_pattern_decompose_call_counterexample :
    (executeWorkflow envFail "uq" "bogus" initState).1 =
      .error (.valueError "Unknown execution pattern: bogus") ∧
    (executeWorkflow envFail "uq" "bogus" initState).2.calls =
      [.generate (.decompose "uq")] ∧
    ([CallKind.generate (.decompose "uq")] : List CallKind) ≠ [] := by
  refine ⟨rfl, rfl, by simp⟩

/-- Claim C4 (amended): an unrecognized pattern name raises the
InvalidPattern ValueError before any strategy execution, but after query
decomposition: exactly one text-generation call (the decomposition) is
made, and no research/analysis/citation capability call occurs. -/
theorem invalid_pattern_after_decompose (env : Caps) (uq p : String)
    (s : OrchState) (pr : Option Json)
    (hgen : env.generateParsed (.decompose uq) = .ok pr)
    (h1 : p ≠ "sequential") (h2 : p ≠ "parallel") (h3 : p ≠ "loop") :
    executeWorkflow env uq p s =
      (.error (.valueError ("Unknown execution pattern: " ++ p)),
       { s with calls := s.calls ++ [.generate (.decompose uq)] }) := by
  rw [executeWorkflow]
  have hdec := decomposeQuery_spec env uq s
  rw [hgen] at hdec
  cases pr with
  | none =>
    rw [bindM_ok hdec]
    rw [if_neg h1, if_neg h2, if_neg h3]
    simp [bindM, failM]
  | some j =>
    rw [bindM_ok hdec]
    rw [if_neg h1, if_neg h2, if_neg h3]
    simp [bindM, failM]

/-- Witness for the amended C4 at a concrete environment and pattern. -/
theorem invalid_pattern_witness :
    executeWorkflow envFail "uq" "bogus" initState =
      (.error (.valueError ("Unknown execution pattern: " ++ "bogus")),
       { initState with calls := [.generate (.decompose "uq")] }) :=
  invalid_pattern_after_decompose envFail "uq" "bogus" initState (some e1) rfl
    (by decide) (by decide) (by decide)

/-- Claim C10 (counterexample): the parsed reply `dBad` is a JSON object
whose `research_queries` value is a string, not a list — yet executing the
sequential strategy neither raises nor runs a zero-task stage: Python
iterates the string character-wise, yielding one research task, one
analysis task and the citation task, and the pass completes. -/
theorem decompose_no_validation_counterexample :
    ((executeSequential envS "uq" dBad initState).1.map
      fun r => (r.researchResults.length, r.analysisResults.length)) = .ok (1, 1) ∧
    (executeSequential envS "uq" dBad initState).2.tasks.map (fun t => t.status) =
      ["completed", "completed", "completed"] ∧
    (1 : Nat) ≠ 0 := by
  refine ⟨rfl, rfl, by decide⟩

/-- Claim C10 (amended): `_decompose_query` returns any successfully parsed
JSON value without validating its shape; a JSON-array reply or an object
missing `research_queries` makes the strategy raise
(TypeError / KeyError), and an object with an empty `research_queries`
list runs the pass with zero research tasks — but a non-list iterable
value (such as a string) under those keys is iterated element-wise and the
pass runs normally with non-empty stages. -/
theorem decompose_no_validation_amended :
    (∀ (env : Caps) (uq : String) (j : Json) (s : OrchState),
      env.generateParsed (.decompose uq) = .ok (some j) →
      decomposeQuery env uq s =
        (.ok j, { s with calls := s.calls ++ [.generate (.decompose uq)] })) ∧
    (executeSequential envS "uq" (.arr []) initState).1 = .error .typeError ∧
    (executeSequential envS "uq" (.obj []) initState).1 =
      .error (.keyError "research_queries") ∧
    ((executeSequential envS "uq" dEmpty initState).1.map
      fun r => (r.researchResults.length, r.analysisResults.length)) = .ok (0, 1) ∧
    ((executeSequential envS "uq" dBad initState).1.map
      fun r => (r.researchResults.length, r.analysisResults.length)) = .ok (1, 1) := by
  refine ⟨?_, rfl, rfl, rfl, rfl⟩
  intro env uq j s h
  rw [decomposeQuery_spec, h]

/-- Witness for the amended C10 at a concrete environment. -/
theorem decompose_no_validation_witness :
    decomposeQuery envFail "uq" initState =
      (.ok e1, { initState with calls := [.generate (.decompose "uq")] }) :=
  decompose_no_validation_amended.1 envFail "uq" e1 initState rfl

/-- Claim C3: given identical deterministic capabilities, the sequential
and parallel strategies compute identical research, analysis, citation and
final-answer results — the parallel fan-out/join pairs results with their
originating queries positionally, so downstream stages see the same
research results in the same positional order. -/
theorem seq_parallel_equivalence (env : Caps) (uq : String) (d : Json)
    (s₁ s₂ s₁' s₂' : OrchState) (r₁ r₂ : SeqResult)
    (h₁ : executeSequential env uq d s₁ = (.ok r₁, s₁'))
    (h₂ : executeParallel env uq d s₂ = (.ok r₂, s₂')) :
    r₁.researchResults = r₂.researchResults ∧
    r₁.analysisResults = r₂.analysisResults ∧
    r₁.citationResult = r₂.citationResult ∧
    r₁.finalAnswer = r₂.finalAnswer := by
  obtain ⟨t1, he₁⟩ := executeSequential_spec env uq d s₁
  obtain ⟨t2, he₂⟩ := executeParallel_spec env uq d s₂
  rw [h₁] at he₁
  rw [h₂] at he₂
  have v1 := congrArg Prod.fst he₁
  have v2 := congrArg Prod.fst he₂
  simp only at v1 v2
  cases hx : pipelineCore env uq d with
  | error e =>
    rw [hx] at v1
    simp [Except.map] at v1
  | ok x =>
    rw [hx] at v1 v2
    simp [Except.map] at v1 v2
    rw [v1, v2]
    exact ⟨rfl, rfl, rfl, rfl⟩

/-- Claim C1: with `max_iterations = 3`, `quality_threshold = 0.85` and
stubbed per-pass quality scores 0.5 and 0.9, the loop strategy stops after
iteration 2 (iteration 3 never runs: only two research calls are made and
`current_iteration` ends at 2), records `converged = true` with
`convergence_iteration = 2`, and synthesizes the final answer from
iteration 2's results ("synth-a2" encodes iteration 2's research output);
in general, the recorded pass selected for synthesis is the first
best-scoring one: strictly better than every earlier pass and at least as
good as every later one (ties broken by earliest iteration), with the
final answer generated from exactly that pass's results. -/
theorem loop_convergence_and_best_selection :
    (∃ s', executeLoop envC1 "uq" d1 3 (17 / 20) initState =
        (.ok loopResultC1, s') ∧
      s'.currentIteration = 2 ∧ countResearchCalls s'.calls = 2) ∧
    (∀ (env : Caps) (uq : String) (d : Json) (m : Nat) (th : ℚ)
      (s : OrchState) (lr : LoopResult) (s' : OrchState),
      executeLoop env uq d m th s = (.ok lr, s') →
      ∃ l₁ b l₂, lr.iterations = l₁ ++ b :: l₂ ∧
        (∀ y ∈ l₁, y.qualityScore < b.qualityScore) ∧
        (∀ y ∈ l₂, y.qualityScore ≤ b.qualityScore) ∧
        lr.bestQualityScore = b.qualityScore ∧
        env.generateText (.synthesize uq b.research b.analysis b.citation) =
          .ok lr.finalAnswer) := by
  constructor
  · exact executeLoopC1_run
  · intro env uq d m th s lr s' h
    obtain ⟨out, s₁, best, fa, hli, hmax, hgen, hlr⟩ :=
      executeLoop_ok_inv env uq d m th s lr s' h
    obtain ⟨l₁, l₂, hsplit, h₁, h₂⟩ :=
      pyMaxBy_first_max (fun ir : IterationResult => ir.qualityScore) out.1 best hmax
    subst hlr
    exact ⟨l₁, best, l₂, hsplit, h₁, h₂, rfl, hgen⟩

/-- Witness for C1: the general best-pass selection applied to the
concrete convergence run. -/
theorem loop_convergence_witness :
    ∃ (s' : OrchState) (l₁ l₂ : List IterationResult) (b : IterationResult),
      executeLoop envC1 "uq" d1 3 (17 / 20) initState = (.ok loopResultC1, s') ∧
      loopResultC1.iterations = l₁ ++ b :: l₂ ∧
      (∀ y ∈ l₁, y.qualityScore < b.qualityScore) ∧
      (∀ y ∈ l₂, y.qualityScore ≤ b.qualityScore) ∧
      loopResultC1.bestQualityScore = b.qualityScore ∧
      envC1.generateText (.synthesize "uq" b.research b.analysis b.citation) =
        .ok loopResultC1.finalAnswer := by
  obtain ⟨s', heq, -, -⟩ := loop_convergence_and_best_selection.1
  obtain ⟨l₁, b, l₂, h₁, h₂, h₃, h₄, h₅⟩ :=
    loop_convergence_and_best_selection.2 envC1 "uq" d1 3 (17 / 20) initState
      loopResultC1 s' heq
  exact ⟨s', l₁, l₂, b, heq, h₁, h₂, h₃, h₄, h₅⟩

/-- Claim C2 (counterexample): in the never-converging run the returned
result's `converged` key is absent (`none`) — it is never set to `false`
as the claim states; only convergence ever sets the key (to `true`). -/
theorem loop_converged_key_absent_counterexample :
    (∃ s', executeLoop envC2 "uq" e1 3 (17 / 20) initState =
      (.ok loopResultC2, s')) ∧
    loopResultC2.converged = none ∧
    loopResultC2.converged ≠ some false := by
  obtain ⟨s', heq, -, -⟩ := executeLoopC2_run
  exact ⟨⟨s', heq⟩, rfl, by simp [loopResultC2]⟩

/-- Claim C2 (amended): with scores 0.2, 0.3, 0.4 against threshold 0.85,
the loop runs exactly `max_iterations = 3` iterations (three research
calls, `current_iteration` ends at 3), the `converged` and
`convergence_iteration` keys are left unset (`none`, not `false`), and the
best-scoring third iteration (score 0.4) is selected for synthesis
("synth-a3" encodes iteration 3's research output); in general, whenever
every recorded pass scores below the threshold, the loop records exactly
`max_iterations` passes and leaves both convergence keys unset. -/
theorem loop_no_convergence_amended :
    (∃ s', executeLoop envC2 "uq" e1 3 (17 / 20) initState =
        (.ok loopResultC2, s') ∧
      s'.currentIteration = 3 ∧ countResearchCalls s'.calls = 3) ∧
    (∀ (env : Caps) (uq : String) (d : Json) (m : Nat) (th : ℚ)
      (s : OrchState) (lr : LoopResult) (s' : OrchState),
      executeLoop env uq d m th s = (.ok lr, s') →
      (∀ it ∈ lr.iterations, it.qualityScore < th) →
      lr.iterations.length = m ∧ lr.converged = none ∧
        lr.convergenceIteration = none) := by
  constructor
  · exact executeLoopC2_run
  · intro env uq d m th s lr s' h hb
    obtain ⟨out, s₁, best, fa, hli, hmax, hgen, hlr⟩ :=
      executeLoop_ok_inv env uq d m th s lr s' h
    subst hlr
    have hb' : ∀ it ∈ out.1, it.qualityScore < th := hb
    have := loopIter_all_below env th m m 0 d [] s out s₁ hli hb'
    simpa [mkLoopResult] using this

/-- Witness for the amended C2: the general exactly-m-iterations property
applied to the concrete never-converging run. -/
theorem loop_no_convergence_witness :
    loopResultC2.iterations.length = 3 ∧ loopResultC2.converged = none ∧
      loopResultC2.convergenceIteration = none := by
  obtain ⟨s', heq, -, -⟩ := loop_no_convergence_amended.1
  refine loop_no_convergence_amended.2 envC2 "uq" e1 3 (17 / 20) initState
    loopResultC2 s' heq ?_
  intro it hit
  simp only [loopResultC2, List.mem_cons, List.mem_singleton] at hit
  rcases hit with h | h | h | h
  · rw [h]
    with_unfolding_all decide
  · rw [h]
    with_unfolding_all decide
  · rw [h]
    with_unfolding_all decide
  · simp at h

/-- Witness for C3 at a concrete three-query decomposition: both
strategies succeed and produce the same research, analysis, citation and
final-answer results. -/
theorem seq_parallel_equivalence_witness :
    ∃ (r₁ r₂ : SeqResult) (s₁' s₂' : OrchState),
      executeSequential envS "uq" d3 initState = (.ok r₁, s₁') ∧
      executeParallel envS "uq" d3 initState = (.ok r₂, s₂') ∧
      (r₁.researchResults = r₂.researchResults ∧
       r₁.analysisResults = r₂.analysisResults ∧
       r₁.citationResult = r₂.citationResult ∧
       r₁.finalAnswer = r₂.finalAnswer) := by
  have hcore : ∃ x, pipelineCore envS "uq" d3 = .ok x := by
    simp [pipelineCore, researchPure, analysisPure, envS, d3, Json.index, Json.pyIter,
      List.lookup]
  obtain ⟨x, hx⟩ := hcore
  obtain ⟨t1, h1⟩ := executeSequential_spec envS "uq" d3 initState
  obtain ⟨t2, h2⟩ := executeParallel_spec envS "uq" d3 initState
  rw [hx] at h1 h2
  refine ⟨mkPipelineResult "sequential" x, mkPipelineResult "parallel" x, _, _, h1, h2, ?_⟩
  exact seq_parallel_equivalence envS "uq" d3 initState initState _ _ _ _ h1 h2

theorem loopIter_pass_error (env : Caps) (th : ℚ) (m rem iter : Nat) (d rq : Json)
    (queries : List Json) (rs : List ResearchResult) (at' : Json) (ats : List Json)
    (e : Err) (acc : List IterationResult) (s : OrchState)
    (hrq : d.index "research_queries" = .ok rq)
    (hqs : rq.pyIter = .ok queries)
    (hrs : researchPure env queries = .ok rs)
    (hat : d.index "analysis_tasks" = .ok at')
    (hts : at'.pyIter = .ok ats)
    (hap : analysisPure env rs ats = .error e) :
    ∃ s', loopIter env th m (rem + 1) iter d acc s = (.error e, s') ∧
      s'.calls = s.calls ++ (researchCallTrace env queries ++
        analysisCallTrace env rs ats) ∧
      s'.finalResult = s.finalResult := by
  simp only [loopIter]
  have hset : setCurrentIteration (iter + 1) s =
      (.ok (), { s with currentIteration := iter + 1 }) := rfl
  rw [bindM_ok hset, bindM_liftExcept_ok hrq, bindM_liftExcept_ok hqs]
  obtain ⟨T1, hR⟩ := researchLoop_spec env
    (fun i => "research_" ++ toString iter ++ "_" ++ toString i) queries 0
    { s with currentIteration := iter + 1 }
  rw [hrs] at hR
  rw [bindM_ok hR, bindM_liftExcept_ok hat, bindM_liftExcept_ok hts]
  obtain ⟨T2, hA⟩ := analysisLoop_spec env
    (fun i => "analysis_" ++ toString iter ++ "_" ++ toString i) rs ats 0
    { s with currentIteration := iter + 1, tasks := s.tasks ++ T1,
             calls := s.calls ++ researchCallTrace env queries }
  rw [hap] at hA
  rw [bindM_error hA]
  refine ⟨_, rfl, ?_, rfl⟩
  simp [List.append_assoc]

/-- Claim C6: a capability failure injected into the analysis stage aborts
the current pipeline pass under every pattern: the workflow call returns
the thrown error (no partial answer), the call log gains no
citation-capability call, and `final_result` is never set. -/
theorem analysis_failure_aborts (env : Caps) (uq : String) (d rq at' : Json)
    (queries : List Json) (t : Json) (ts : List Json) (e : Err) (s : OrchState)
    (hdec : env.generateParsed (.decompose uq) = .ok (some d))
    (hrq : d.index "research_queries" = .ok rq)
    (hqs : rq.pyIter = .ok queries)
    (hres : ∀ q ∈ queries, ∃ r, env.research q = .ok r)
    (hat : d.index "analysis_tasks" = .ok at')
    (hts : at'.pyIter = .ok (t :: ts))
    (hana : ∀ t' ctx, env.analysis t' ctx = .error e) :
    ∀ p, p = "sequential" ∨ p = "parallel" ∨ p = "loop" →
    ∃ s' C, executeWorkflow env uq p s = (.error e, s') ∧
      s'.calls = s.calls ++ C ∧ (∀ c ∈ C, c.isCitation = false) ∧
      s'.finalResult = s.finalResult := by
  obtain ⟨rs, hrs⟩ := researchPure_ok env queries hres
  have hap : analysisPure env rs (t :: ts) = .error e := by
    rw [analysisPure, hana t rs]
  have hcore : pipelineCore env uq d = .error e := by
    simp [pipelineCore, hrq, hqs, hrs, hat, hts, hap]
  have htrace : pipelineCallTrace env uq d =
      researchCallTrace env queries ++ analysisCallTrace env rs (t :: ts) := by
    simp [pipelineCallTrace, hrq, hqs, hrs, hat, hts, hap]
  have hnocit : ∀ c ∈ researchCallTrace env queries ++
      analysisCallTrace env rs (t :: ts), c.isCitation = false := by
    intro c hc
    rcases List.mem_append.mp hc with hc | hc
    · exact researchCallTrace_no_citation env queries c hc
    · exact analysisCallTrace_no_citation env rs (t :: ts) c hc
  have hdec' : decomposeQuery env uq s =
      (.ok d, { s with calls := s.calls ++ [.generate (.decompose uq)] }) := by
    rw [decomposeQuery_spec, hdec]
  intro p hp
  rcases hp with hp | hp | hp
  · subst hp
    rw [executeWorkflow, bindM_ok hdec']
    rw [if_pos rfl]
    obtain ⟨tasks', hseq⟩ := executeSequential_spec env uq d
      { s with calls := s.calls ++ [.generate (.decompose uq)] }
    rw [hcore] at hseq
    simp only [Except.map] at hseq
    rw [bindM_error (bindM_error hseq)]
    refine ⟨_, .generate (.decompose uq) :: (researchCallTrace env queries ++
      analysisCallTrace env rs (t :: ts)), rfl, ?_, ?_, rfl⟩
    · rw [htrace]
      simp
    · intro c hc
      rcases List.mem_cons.mp hc with hc | hc
      · subst hc; rfl
      · exact hnocit c hc
  · subst hp
    rw [executeWorkflow, bindM_ok hdec']
    rw [if_neg (by decide), if_pos rfl]
    obtain ⟨tasks', hpar⟩ := executeParallel_spec env uq d
      { s with calls := s.calls ++ [.generate (.decompose uq)] }
    rw [hcore] at hpar
    simp only [Except.map] at hpar
    rw [bindM_error (bindM_error hpar)]
    refine ⟨_, .generate (.decompose uq) :: (researchCallTrace env queries ++
      analysisCallTrace env rs (t :: ts)), rfl, ?_, ?_, rfl⟩
    · rw [htrace]
      simp
    · intro c hc
      rcases List.mem_cons.mp hc with hc | hc
      · subst hc; rfl
      · exact hnocit c hc
  · subst hp
    rw [executeWorkflow, bindM_ok hdec']
    rw [if_neg (by decide), if_neg (by decide), if_pos rfl]
    obtain ⟨sL, hli, hLcalls, hLfr⟩ := loopIter_pass_error env (17 / 20) 3 2 0 d rq
      queries rs at' (t :: ts) e []
      { s with calls := s.calls ++ [.generate (.decompose uq)] }
      hrq hqs hrs hat hts hap
    have hli' : loopIter env (17 / 20) 3 3 0 d []
        { s with calls := s.calls ++ [.generate (.decompose uq)] } =
        (.error e, sL) := hli
    have hloop : executeLoop env uq d 3 (17 / 20)
        { s with calls := s.calls ++ [.generate (.decompose uq)] } =
        (.error e, sL) := by
      rw [executeLoop, bindM_error hli']
    rw [bindM_error (bindM_error hloop)]
    refine ⟨sL, .generate (.decompose uq) :: (researchCallTrace env queries ++
      analysisCallTrace env rs (t :: ts)), rfl, ?_, ?_, ?_⟩
    · rw [hLcalls]
      simp
    · intro c hc
      rcases List.mem_cons.mp hc with hc | hc
      · subst hc; rfl
      · exact hnocit c hc
    · rw [hLfr]

/-- Witness for C6: a throwing analysis capability aborts the sequential
workflow on a concrete decomposition. -/
theorem analysis_failure_aborts_witness :
    ∃ s' C, executeWorkflow envAnaFail "uq" "sequential" initState =
      (.error (.capability "ana"), s') ∧
      s'.calls = initState.calls ++ C ∧ (∀ c ∈ C, c.isCitation = false) ∧
      s'.finalResult = initState.finalResult :=
  analysis_failure_aborts envAnaFail "uq" e1 (.arr [.str "q1"]) (.arr [.str "t"])
    [.str "q1"] (.str "t") [] (.capability "ana") initState rfl rfl rfl
    (by intro q hq; exact ⟨_, rfl⟩) rfl rfl (fun _ _ => rfl)
    "sequential" (Or.inl rfl)

end DocIntel
